import Mathlib

/-!
# wav_player: a shallow embedding of `wav_player.c`

The C functions of `src/wav_player.c` are rendered as Lean functions over an
explicit state.

* Bytes are natural numbers (a real byte is `< 256`).
* A `FILE` is its content together with a read cursor.
* Every call that leaves the program (ALSA calls, `usleep`, `sleep`) is
  appended to `State.trace`; the result the outside world gives back is
  read from the environment `Env`, as a function of the whole history of calls.
* `g_terminate_flag` is shared with another thread.  Each read of it goes
  through `readFlag`, where the environment may have overwritten it.
* Loops that C does not bound (`while (0 > snd_pcm_writei ...)`, the resume
  loop, the streaming loop) carry a fuel argument and return `none` when the
  fuel runs out.
* `printf`/`puts` diagnostics have no effect on any of the results and are
  left out.  Out-parameters (`header`, `info`) are returned as values, so
  their `NULL` guards have no counterpart; `alloca` does not yield `NULL`, so
  the guards on `pcm_hwparams` and `pcm_swparams` are dropped as well.
* C integers are `Int`/`Nat` with the conversions `wrapS`/`wrapU` written out
  where the C code converts between widths.
-/

namespace WavPlayer

/-! ## Machine integers -/

/-- Conversion to a signed two's complement integer of `w` bits. -/
def wrapS (w : Nat) (x : Int) : Int :=
  let m := x % (2 : Int) ^ w
  if m < (2 : Int) ^ (w - 1) then m else m - (2 : Int) ^ w

/-- Conversion to an unsigned integer of `w` bits. -/
def wrapU (w : Nat) (x : Int) : Nat := (x % (2 : Int) ^ w).toNat

/-- Little-endian value of a list of bytes. -/
def leValue : List Nat → Nat
  | [] => 0
  | b :: bs => b + 256 * leValue bs

/-- A C `short` stored in two bytes. -/
def leShort (bs : List Nat) : Int := wrapS 16 (leValue (bs.take 2))

/-- A C `int` stored in four bytes. -/
def leInt (bs : List Nat) : Int := wrapS 32 (leValue (bs.take 4))

/-! ## errno values (Linux `<errno.h>`) -/

def EAGAIN : Int := 11
def EPIPE : Int := 32
def ESTRPIPE : Int := 86

/-! ## Files -/

/-- An open stdio stream on a regular file: content and read cursor. -/
structure FILE where
  content : List Nat
  pos : Nat
  deriving DecidableEq, Repr

/-- The call `fseek(fp, off, SEEK_SET)`. -/
def fseek_set (fp : FILE) (off : Nat) : FILE := { fp with pos := off }

/-- The call `fread(buf, 1, n, fp)`: the bytes read and the advanced stream. -/
def fread (fp : FILE) (n : Nat) : List Nat × FILE :=
  let got := (fp.content.drop fp.pos).take n
  (got, { fp with pos := fp.pos + got.length })

/-! ## Header -/

/-- The packed struct `WAV_HEADER`. -/
structure WAV_HEADER where
  riff : List Nat
  len : Int
  wave : List Nat
  format : List Nat
  size : Int
  format_tag : Int
  channels : Int
  samples_per_second : Int
  average_bits_per_sample : Int
  block_aligned : Int
  bits_per_sample : Int
  data : List Nat
  sample_length : Int
  deriving DecidableEq, Repr

/-- The value of `sizeof(WAV_HEADER)` for the packed layout. -/
def sizeof_WAV_HEADER : Nat := 44

/-- The fields of a `WAV_HEADER` whose memory holds the bytes `m`. -/
def headerOfBytes (m : List Nat) : WAV_HEADER :=
  { riff := (m.drop 0).take 4
    len := leInt (m.drop 4)
    wave := (m.drop 8).take 4
    format := (m.drop 12).take 4
    size := leInt (m.drop 16)
    format_tag := leShort (m.drop 20)
    channels := leShort (m.drop 22)
    samples_per_second := leInt (m.drop 24)
    average_bits_per_sample := leInt (m.drop 28)
    block_aligned := leShort (m.drop 32)
    bits_per_sample := leShort (m.drop 34)
    data := (m.drop 36).take 4
    sample_length := leInt (m.drop 40) }

/-- The function `tolower` of the C locale, on an unsigned char. -/
def tolower (c : Nat) : Nat := if 65 ≤ c ∧ c ≤ 90 then c + 32 else c

/-- The function `strncasecmp(s1, s2, n)`; a list that has run out reads as the
terminating NUL. -/
def strncasecmp : List Nat → List Nat → Nat → Int
  | _, _, 0 => 0
  | s1, s2, n + 1 =>
    let c1 := s1.headD 0
    let c2 := s2.headD 0
    if tolower c1 ≠ tolower c2 then (tolower c1 : Int) - (tolower c2 : Int)
    else if c1 = 0 then 0
    else strncasecmp s1.tail s2.tail n

/-- The string literal `"RIFF"`. -/
def lit_RIFF : List Nat := [82, 73, 70, 70]
/-- The string literal `"WAVE"`. -/
def lit_WAVE : List Nat := [87, 65, 86, 69]
/-- The string literal `"fmt"`. -/
def lit_fmt : List Nat := [102, 109, 116]
/-- The string literal `"data"`. -/
def lit_data : List Nat := [100, 97, 116, 97]
/-- The four characters `"fmt "` the format field of a wave file holds. -/
def lit_fmt_sp : List Nat := [102, 109, 116, 32]

/-- The function `isWavFormat`: the result, the header as read (bytes a short
read leaves untouched show as 0; the caller does not look at them) and the
stream. -/
def isWavFormat (fp : Option FILE) : Bool × WAV_HEADER × Option FILE :=
  match fp with
  | none => (false, headerOfBytes [], none)
  | some f =>
    let f1 := fseek_set f 0
    let r := fread f1 sizeof_WAV_HEADER
    let len : Int := r.1.length
    let header := headerOfBytes r.1
    if (sizeof_WAV_HEADER : Int) > len then (false, header, some r.2)
    else if strncasecmp lit_RIFF header.riff 4 ≠ 0
        ∨ strncasecmp lit_WAVE header.wave 4 ≠ 0
        ∨ strncasecmp lit_fmt header.format 3 ≠ 0
        ∨ strncasecmp lit_data header.data 4 ≠ 0 then (false, header, some r.2)
    else (true, header, some r.2)

/-- Spec side: a field matches a literal case-insensitively when both have the
same characters up to letter case. -/
def ciMatch (lit field : List Nat) : Bool := lit.map tolower == field.map tolower

/-- The bytes of a field of `n` bytes at offset `off`. -/
def fieldAt (bytes : List Nat) (off n : Nat) : List Nat := (bytes.drop off).take n

/-! ## The outside world -/

/-- The sample formats the program asks for. -/
inductive Format where
  | U8
  | S16_LE
  | S24_LE
  deriving DecidableEq, Repr

/-- The calls that leave the program, with the arguments the program chooses. -/
inductive Call where
  | snd_pcm_open (name : List Nat)
  | snd_pcm_hw_params_any
  | snd_pcm_hw_params_set_rate_resample (val : Int)
  | snd_pcm_hw_params_set_access_rw_interleaved
  | snd_pcm_hw_params_set_format (f : Format)
  | snd_pcm_hw_params_set_channels (val : Nat)
  | snd_pcm_hw_params_set_rate_near (rate : Nat)
  | snd_pcm_hw_params_get_buffer_time_max
  | snd_pcm_hw_params_set_buffer_time_near (t : Nat)
  | snd_pcm_hw_params_get_buffer_size
  | snd_pcm_hw_params_get_period_time_max
  | snd_pcm_hw_params_set_period_time_near (t : Nat)
  | snd_pcm_hw_params_get_period_size
  | snd_pcm_hw_params
  | snd_pcm_sw_params_current
  | snd_pcm_sw_params_set_start_threshold (val : Nat)
  | snd_pcm_sw_params_set_avail_min (val : Nat)
  | snd_pcm_sw_params_set_period_event (val : Int)
  | snd_pcm_sw_params
  | snd_pcm_prepare
  | snd_pcm_resume
  | snd_pcm_writei (buffer : List Nat) (frames : Nat)
  | snd_pcm_drain
  | snd_pcm_close
  | usleep (usec : Nat)
  | sleep (sec : Nat)
  deriving DecidableEq, Repr

/-- What the program does not control.
`resp h` is the value returned by the last call of the history `h`;
`out h` is the value that call stores through its out-parameter;
`other k` is what the other thread has stored into `g_terminate_flag`
since the previous read, seen at the `k`-th read (`none`: nothing);
`alloc n` tells whether `malloc(n)` succeeds. -/
structure Env where
  resp : List Call → Int
  out : List Call → Nat
  other : Nat → Option Bool
  alloc : Nat → Bool

/-- The globals of `wav_player.c`, the calls made so far and the number of
reads of `g_terminate_flag` so far. -/
structure State where
  g_terminate_flag : Bool
  g_pcm_device : List Nat
  g_pcm_dev_handle : Bool
  trace : List Call
  reads : Nat
  deriving DecidableEq, Repr

/-- The state a process starts in. -/
def State.init : State :=
  { g_terminate_flag := false
    g_pcm_device := [100, 101, 102, 97, 117, 108, 116]
    g_pcm_dev_handle := false
    trace := []
    reads := 0 }

/-- One call: it is recorded and its result comes from the environment. -/
def call (env : Env) (st : State) (c : Call) : Int × State :=
  (env.resp (st.trace ++ [c]), { st with trace := st.trace ++ [c] })

/-- The calls made between the state `st` and the later state `st1`. -/
def issued (st st1 : State) : List Call := st1.trace.drop st.trace.length

/-- One read of `g_terminate_flag`. -/
def readFlag (env : Env) (st : State) : Bool × State :=
  let v := (env.other st.reads).getD st.g_terminate_flag
  (v, { st with g_terminate_flag := v, reads := st.reads + 1 })

/-- The struct `PCM_SIZE_INFO`. -/
structure PCM_SIZE_INFO where
  pcm_buffer_size : Int
  pcm_period_size : Int
  deriving DecidableEq, Repr

/-! ## Hardware parameters -/

/-- The function `set_hwparams`. The second component is `*info` on return. -/
def set_hwparams (env : Env) (st : State) (header : WAV_HEADER) (info : PCM_SIZE_INFO) :
    Bool × PCM_SIZE_INFO × State :=
  let resample : Int := 1
  let o : Int × State :=
    if st.g_pcm_dev_handle then (0, st)
    else
      let r := call env st (.snd_pcm_open st.g_pcm_device)
      (r.1, { r.2 with g_pcm_dev_handle := decide (0 ≤ r.1) })
  if 0 > o.1 then (false, info, o.2) else
  let r1 := call env o.2 .snd_pcm_hw_params_any
  if 0 > r1.1 then (false, info, r1.2) else
  let r2 := call env r1.2 (.snd_pcm_hw_params_set_rate_resample resample)
  if 0 > r2.1 then (false, info, r2.2) else
  let r3 := call env r2.2 .snd_pcm_hw_params_set_access_rw_interleaved
  if 0 > r3.1 then (false, info, r3.2) else
  let sel : Int := header.bits_per_sample >>> (3 : Nat)
  let r4 : Int × State :=
    if sel = 1 then call env r3.2 (.snd_pcm_hw_params_set_format .U8)
    else if sel = 2 then call env r3.2 (.snd_pcm_hw_params_set_format .S16_LE)
    else if sel = 3 then call env r3.2 (.snd_pcm_hw_params_set_format .S24_LE)
    else (-1, r3.2)
  if 0 > r4.1 then (false, info, r4.2) else
  let r5 := call env r4.2 (.snd_pcm_hw_params_set_channels (wrapU 32 header.channels))
  if 0 > r5.1 then (false, info, r5.2) else
  let rate := wrapU 32 header.samples_per_second
  let r6 := call env r5.2 (.snd_pcm_hw_params_set_rate_near rate)
  if 0 > r6.1 then (false, info, r6.2) else
  let r7 := call env r6.2 .snd_pcm_hw_params_get_buffer_time_max
  if 0 > r7.1 then (false, info, r7.2) else
  let buffer_time : Nat := env.out r7.2.trace % 2 ^ 32
  let r8 := call env r7.2 (.snd_pcm_hw_params_set_buffer_time_near buffer_time)
  if 0 > r8.1 then (false, info, r8.2) else
  let r9 := call env r8.2 .snd_pcm_hw_params_get_buffer_size
  if 0 > r9.1 then (false, info, r9.2) else
  let size : Nat := env.out r9.2.trace % 2 ^ 64
  let info1 := { info with pcm_buffer_size := wrapS 64 (size : Int) }
  let r10 := call env r9.2 .snd_pcm_hw_params_get_period_time_max
  if 0 > r10.1 then (false, info1, r10.2) else
  let period_time : Nat := env.out r10.2.trace % 2 ^ 32
  let r11 := call env r10.2 (.snd_pcm_hw_params_set_period_time_near period_time)
  if 0 > r11.1 then (false, info1, r11.2) else
  let r12 := call env r11.2 .snd_pcm_hw_params_get_period_size
  if 0 > r12.1 then (false, info1, r12.2) else
  let size1 : Nat := env.out r12.2.trace % 2 ^ 64
  let info2 := { info1 with pcm_period_size := wrapS 64 (size1 : Int) }
  let r13 := call env r12.2 .snd_pcm_hw_params
  if 0 > r13.1 then (false, info2, r13.2) else
  (true, info2, r13.2)

/-! ## Software parameters -/

/-- The function `set_swparams`. The result is `none` when the division
`pcm_buffer_size / pcm_period_size` traps (zero divisor, or `LONG_MIN / -1`). -/
def set_swparams (env : Env) (st : State) (info : PCM_SIZE_INFO) : Option (Bool × State) :=
  let period_event : Int := 0
  let r1 := call env st .snd_pcm_sw_params_current
  if 0 > r1.1 then some (false, r1.2) else
  if info.pcm_period_size = 0
      ∨ (info.pcm_buffer_size = -(2 : Int) ^ 63 ∧ info.pcm_period_size = -1) then none else
  let threshold : Int :=
    wrapS 64 (Int.tdiv info.pcm_buffer_size info.pcm_period_size * info.pcm_period_size)
  let r2 := call env r1.2 (.snd_pcm_sw_params_set_start_threshold (wrapU 64 threshold))
  if 0 > r2.1 then some (false, r2.2) else
  let avail : Int := if period_event ≠ 0 then info.pcm_buffer_size else info.pcm_period_size
  let r3 := call env r2.2 (.snd_pcm_sw_params_set_avail_min (wrapU 64 avail))
  if 0 > r3.1 then some (false, r3.2) else
  let r4 : Int × State :=
    if period_event ≠ 0 then call env r3.2 (.snd_pcm_sw_params_set_period_event 1)
    else (r3.1, r3.2)
  if period_event ≠ 0 ∧ 0 > r4.1 then some (false, r4.2) else
  let r5 := call env r4.2 .snd_pcm_sw_params
  if 0 > r5.1 then some (false, r5.2) else
  some (true, r5.2)

/-! ## Recovery -/

/-- The loop `while (-EAGAIN == (err = snd_pcm_resume(...))) sleep(1);`. -/
def resumeLoop : Nat → Env → State → Option (Int × State)
  | 0, _, _ => none
  | fuel + 1, env, st =>
    let r := call env st .snd_pcm_resume
    if -EAGAIN = r.1 then resumeLoop fuel env (call env r.2 (.sleep 1)).2
    else some r

/-- The function `xrun_recovery`. -/
def xrun_recovery (fuel : Nat) (env : Env) (st : State) (err : Int) : Option (Int × State) :=
  if -EPIPE = err then
    let r := call env st .snd_pcm_prepare
    some (0, r.2)
  else if -ESTRPIPE = err then
    match resumeLoop fuel env st with
    | none => none
    | some r =>
      if 0 > r.1 then
        let r1 := call env r.2 .snd_pcm_prepare
        some (0, r1.2)
      else some (0, r.2)
  else some (err, st)

/-! ## Streaming -/

/-- The value of `int size = info.pcm_period_size * block_size;`. -/
def bufferSize (info : PCM_SIZE_INFO) (block_size : Int) : Int :=
  wrapS 32 (wrapS 64 (info.pcm_period_size * block_size))

/-- The buffer after `memset(buf, 0, size)` and a read that returned `got`. -/
def fillBuffer (size : Nat) (got : List Nat) : List Nat :=
  got ++ List.replicate (size - got.length) 0

/-- The value `err` receives from `snd_pcm_writei(..., buf, period)` issued in
state `st`. -/
def writeErr (env : Env) (st : State) (buf : List Nat) (period : Int) : Int :=
  wrapS 32 (env.resp (st.trace ++ [.snd_pcm_writei buf (wrapU 64 period)]))

/-- The flag value read and the state reached in the body of the write loop
when the write issued in `st` has failed: after the write, the pause of 1 ms
and the read of `g_terminate_flag`. -/
def failedWrite (env : Env) (st : State) (buf : List Nat) (period : Int) : Bool × State :=
  readFlag env
    (call env (call env st (.snd_pcm_writei buf (wrapU 64 period))).2 (.usleep 1000)).2

/-- The loop `while (0 > (err = snd_pcm_writei(...))) { ... }` for one buffer. -/
def writeLoop : Nat → Env → List Nat → Int → State → Option State
  | 0, _, _, _, _ => none
  | fuel + 1, env, buf, period, st =>
    let w := call env st (.snd_pcm_writei buf (wrapU 64 period))
    let err := wrapS 32 w.1
    if 0 > err then
      let s1 := (call env w.2 (.usleep 1000)).2
      let f := readFlag env s1
      if f.1 then some f.2
      else if -EAGAIN = err then writeLoop fuel env buf period f.2
      else if 0 > err then
        match xrun_recovery fuel env f.2 err with
        | none => none
        | some r => some r.2
      else writeLoop fuel env buf period f.2
    else some w.2

/-- The loop `while (!g_terminate_flag) { ... }` of `play_wav_raw_data`. -/
def streamLoop : Nat → Env → FILE → Int → Int → State → Option (State × FILE)
  | 0, _, _, _, _, _ => none
  | fuel + 1, env, fp, size, period, st =>
    let f := readFlag env st
    if f.1 then some (f.2, fp)
    else
      let r := fread fp size.toNat
      let buf := fillBuffer size.toNat r.1
      let err : Int := r.1.length
      let f1 := readFlag env f.2
      if f1.1 ∨ 0 ≥ err then some (f1.2, r.2)
      else
        match writeLoop fuel env buf period f1.2 with
        | none => none
        | some s => streamLoop fuel env r.2 size period s

/-- The call `malloc(size)` with an `int` argument: a negative `size` converts to
more than `PTRDIFF_MAX` bytes, which is never granted. -/
def malloc (env : Env) (size : Int) : Bool := decide (0 ≤ size) && env.alloc size.toNat

/-- The function `play_wav_raw_data`. The result is `none` when the fuel does not
suffice for the loops to finish. -/
def play_wav_raw_data (fuel : Nat) (env : Env) (fp : Option FILE) (info : PCM_SIZE_INFO)
    (block_size : Int) (st : State) : Option (State × Option FILE) :=
  let size := bufferSize info block_size
  match fp with
  | none => some (st, none)
  | some f =>
    if malloc env size = false then some (st, some f)
    else
      match streamLoop fuel env f size info.pcm_period_size st with
      | none => none
      | some r => some ({ r.1 with g_terminate_flag := false }, some r.2)

/-! ## Entry points -/

/-- The function `close_wav_player`. -/
def close_wav_player (env : Env) (st : State) : State :=
  if st.g_pcm_dev_handle then
    let s1 := (call env st .snd_pcm_drain).2
    let s2 := (call env s1 .snd_pcm_close).2
    { s2 with g_pcm_dev_handle := false }
  else st

/-- The loop `while (100 > counter) { ... }` of `terminate_last_one`. -/
def terminateLoop (env : Env) (counter : Nat) (st : State) : State :=
  if 100 > counter then
    let s1 := (call env st (.usleep 100)).2
    let f := readFlag env s1
    if f.1 = false then f.2
    else terminateLoop env (counter + 1) f.2
  else st
termination_by 100 - counter

/-- The function `terminate_last_one`. -/
def terminate_last_one (env : Env) (st : State) : State :=
  let f := readFlag env st
  if f.1 = false then
    terminateLoop env 0 { f.2 with g_terminate_flag := true }
  else f.2

/-- The function `play_wav_file`. `fopen` gives the content of the files that
can be opened. The result is `none` when the call does not return: a trap in
`set_swparams`, or fuel that does not suffice. -/
def play_wav_file (fuel : Nat) (env : Env) (fopen : List Nat → Option (List Nat))
    (file_name device : Option (List Nat)) (st : State) : Option State :=
  match file_name with
  | none => some st
  | some name =>
    match fopen name with
    | none => some st
    | some content =>
      let v := isWavFormat (some { content := content, pos := 0 })
      if v.1 = false then some st
      else
        let s1 : State :=
          match device with
          | none => st
          | some d => { st with g_pcm_device := d.take 15 }
        let hw := set_hwparams env s1 v.2.1 { pcm_buffer_size := 0, pcm_period_size := 0 }
        if hw.1 = false then some hw.2.2
        else
          match set_swparams env hw.2.2 hw.2.1 with
          | none => none
          | some sw =>
            if sw.1 = false then some sw.2
            else
              let s2 := { sw.2 with g_terminate_flag := false }
              match play_wav_raw_data fuel env v.2.2 hw.2.1 v.2.1.block_aligned s2 with
              | none => none
              | some r => some r.1

/-! ## Spec-side notions -/

/-- At most `n` consecutive blocks of `S` bytes of `data`, as long as data is
left, each padded with zero bytes to `S` bytes. -/
def blocksAux (S : Nat) : Nat → List Nat → List (List Nat)
  | 0, _ => []
  | n + 1, d => if d = [] then [] else fillBuffer S (d.take S) :: blocksAux S n (d.drop S)

/-- The data split into consecutive blocks of `S` bytes, a final short block
padded with zero bytes. -/
def blocks (S : Nat) (data : List Nat) : List (List Nat) :=
  blocksAux S data.length data

/-- The calls `set_hwparams` makes before it chooses the sample format: the
open when no handle is held, then the three calls of lines 118-138. -/
def hwPrefix (st : State) : List Call :=
  (if st.g_pcm_dev_handle then [] else [Call.snd_pcm_open st.g_pcm_device]) ++
    [Call.snd_pcm_hw_params_any, Call.snd_pcm_hw_params_set_rate_resample 1,
      Call.snd_pcm_hw_params_set_access_rw_interleaved]

/-- The device accepts the calls `cs` made one after the other from state `st`:
none of them returns a negative result. -/
def Accepts (env : Env) (st : State) (cs : List Call) : Prop :=
  ∀ k, k < cs.length → 0 ≤ env.resp (st.trace ++ cs.take (k + 1))

/-- Whether a call is a device write. -/
def Call.isWrite : Call → Bool
  | .snd_pcm_writei _ _ => true
  | _ => false

/-- No cancellation is requested: the flag is clear and the other thread never
raises it. -/
def NoCancel (env : Env) (st : State) : Prop :=
  st.g_terminate_flag = false ∧ ∀ k, env.other k ≠ some true

/-- Every write loop comes to an end: from every state without cancellation
and for every buffer, the device does not answer `-EAGAIN` for ever, neither to
the write nor to the resume of the recovery. -/
def WriteLoopsEnd (env : Env) (period : Int) : Prop :=
  ∀ (st : State) (buf : List Nat), NoCancel env st →
    ∃ fuel s, writeLoop fuel env buf period st = some s

/-- The calls made for one block `b` of the data: they start with the write of
`b`, and every later write among them is again a write of `b`. -/
def BlockAttempt (frames : Nat) (b : List Nat) (seg : List Call) : Prop :=
  ∃ xs, seg = Call.snd_pcm_writei b frames :: xs ∧
    ∀ b1 fr, Call.snd_pcm_writei b1 fr ∈ xs → b1 = b ∧ fr = frames

/-- A device that accepts every call, reports `v` through every out-parameter,
and a heap that grants every request; the other thread stays silent. -/
def okEnv (v : Nat) : Env :=
  { resp := fun _ => 0, out := fun _ => v, other := fun _ => none, alloc := fun _ => true }

/-! ## Sample inputs -/

/-- A 44-byte header `RIFF....WAVEfmt?` for PCM at 44100 Hz, with the fourth
byte of the format tag, the channel count, the block alignment and the bits per
sample as given (each below 256). -/
def sampleHeader (fmt4 channels block_aligned bits : Nat) : List Nat :=
  [82, 73, 70, 70, 0, 0, 0, 0, 87, 65, 86, 69, 102, 109, 116, fmt4, 16, 0, 0, 0, 1, 0,
    channels, 0, 68, 172, 0, 0, 0, 0, 0, 0, block_aligned, 0, bits, 0,
    100, 97, 116, 97, 0, 0, 0, 0]

/-- An accepting device with another thread that raises the flag just before
the third read of it. -/
def cancelEnv : Env :=
  { okEnv 1024 with other := fun k => if k = 2 then some true else none }

/-- Ten data bytes behind a header, with the cursor at the data. -/
def sampleStream : FILE :=
  { content := sampleHeader 32 2 4 16 ++ [1, 2, 3, 4, 5, 6, 7, 8, 9, 10], pos := 44 }

/-- A device whose first call fails with `-EAGAIN`, whose third call fails with
`-EIO`, and that accepts every other call. -/
def flakyEnv : Env :=
  { okEnv 1024 with
    resp := fun h => if h.length = 1 then -11 else if h.length = 3 then -5 else 0 }

/-- A device on which every call fails with `-EIO`. -/
def eioEnv : Env :=
  { okEnv 1024 with resp := fun _ => -5 }

/-- A wave file for 2 channels of 16 bits whose header gives `block_aligned = 1`,
followed by ten data bytes. -/
def misalignedFile : List Nat :=
  sampleHeader 32 2 1 16 ++ [1, 2, 3, 4, 5, 6, 7, 8, 9, 10]

/-- A device whose `snd_pcm_prepare` fails with `-EIO` and that accepts every
other call. -/
def prepareFailsEnv : Env :=
  { okEnv 1024 with
    resp := fun h => if h.getLast? = some Call.snd_pcm_prepare then -5 else 0 }

/-! # Theorems -/



/-! ## Header validation -/

theorem tolower_pos {c : Nat} (h : c ≠ 0) : tolower c ≠ 0 := by
  unfold tolower; split <;> omega

theorem tolower_zero : tolower 0 = 0 := by decide

/-- On a literal without NUL, `strncasecmp` over the literal's length yields 0
exactly when the first characters of the field agree with it up to case. -/
theorem strncasecmp_eq_zero_iff (lit : List Nat) (h0 : ∀ c ∈ lit, c ≠ 0) (field : List Nat) :
    strncasecmp lit field lit.length = 0 ↔
      lit.map tolower = (field.take lit.length).map tolower := by
  induction lit generalizing field with
  | nil => simp [strncasecmp]
  | cons a l ih =>
    have ha : a ≠ 0 := h0 a (by simp)
    have hl : ∀ c ∈ l, c ≠ 0 := fun c hc => h0 c (by simp [hc])
    cases field with
    | nil =>
      have := tolower_pos ha
      simp [strncasecmp, tolower_zero, this]
    | cons b f =>
      simp only [List.length_cons, strncasecmp, List.headD_cons, List.tail_cons, List.take_succ_cons,
        List.map_cons, List.cons.injEq]
      by_cases hab : tolower a = tolower b
      · simp [hab, ha, ih hl f]
      · simp only [ne_eq, hab, not_false_eq_true, ↓reduceIte, false_and, iff_false]
        intro h
        apply hab
        omega

theorem headerOfBytes_fields (m : List Nat) :
    (headerOfBytes m).riff = fieldAt m 0 4 ∧ (headerOfBytes m).wave = fieldAt m 8 4 ∧
    (headerOfBytes m).format = fieldAt m 12 4 ∧ (headerOfBytes m).data = fieldAt m 36 4 := by
  simp [headerOfBytes, fieldAt]

/-- The function `isWavFormat` accepts exactly the streams of at least 44 bytes
whose RIFF, WAVE and data fields and the first three bytes of whose format
field agree with the literals up to case. -/
theorem isWavFormat_true_iff (bytes : List Nat) (pos : Nat) :
    (isWavFormat (some ⟨bytes, pos⟩)).1 = true ↔
      44 ≤ bytes.length ∧ ciMatch lit_RIFF (fieldAt bytes 0 4) = true ∧
        ciMatch lit_WAVE (fieldAt bytes 8 4) = true ∧
        ciMatch lit_fmt (fieldAt bytes 12 3) = true ∧
        ciMatch lit_data (fieldAt bytes 36 4) = true := by
  have hR := strncasecmp_eq_zero_iff lit_RIFF (by decide) (fieldAt bytes 0 4)
  have hW := strncasecmp_eq_zero_iff lit_WAVE (by decide) (fieldAt bytes 8 4)
  have hF := strncasecmp_eq_zero_iff lit_fmt (by decide) (fieldAt bytes 12 4)
  have hD := strncasecmp_eq_zero_iff lit_data (by decide) (fieldAt bytes 36 4)
  have e4 : ∀ off, (fieldAt bytes off 4).take 4 = fieldAt bytes off 4 := by
    intro off; simp [fieldAt]
  have e3 : (fieldAt bytes 12 4).take 3 = fieldAt bytes 12 3 := by
    simp [fieldAt, List.take_take]
  have lR : lit_RIFF.length = 4 := rfl
  have lW : lit_WAVE.length = 4 := rfl
  have lF : lit_fmt.length = 3 := rfl
  have lD : lit_data.length = 4 := rfl
  rw [lR, e4] at hR
  rw [lW, e4] at hW
  rw [lF, e3] at hF
  rw [lD, e4] at hD
  by_cases hlen : 44 ≤ bytes.length
  · have htake : (bytes.take 44).length = 44 := by simp [hlen]
    have f4 : ∀ off n, off + n ≤ 44 → fieldAt (bytes.take 44) off n = fieldAt bytes off n := by
      intro off n h
      simp only [fieldAt, List.drop_take, List.take_take]
      congr 1
      omega
    simp only [isWavFormat, fseek_set, fread, List.drop_zero, htake, sizeof_WAV_HEADER,
      (headerOfBytes_fields _).1, (headerOfBytes_fields _).2.1, (headerOfBytes_fields _).2.2.1,
      (headerOfBytes_fields _).2.2.2, f4 0 4 (by omega), f4 8 4 (by omega), f4 12 4 (by omega),
      f4 36 4 (by omega), ciMatch, beq_iff_eq, hlen, true_and]
    rw [← hR, ← hW, ← hF, ← hD]
    simp only [Nat.cast_ofNat, gt_iff_lt, lt_self_iff_false, ↓reduceIte, ne_eq]
    split
    · rename_i h
      simp only [Bool.false_eq_true, false_iff]
      intro hc
      rcases h with h | h | h | h
      · exact h hc.1
      · exact h hc.2.1
      · exact h hc.2.2.1
      · exact h hc.2.2.2
    · rename_i h
      simp only [not_or, not_not] at h
      simp only [true_iff]
      exact h
  · have : (bytes.take 44).length < 44 := by simp; omega
    simp only [isWavFormat, fseek_set, fread, List.drop_zero, sizeof_WAV_HEADER, hlen, false_and,
      iff_false]
    have hlt : bytes.length < 44 := by omega
    simp [hlt]

/-- C2: every byte sequence shorter than 44 bytes is rejected by `isWavFormat`,
whatever its content and wherever the cursor stood. -/
theorem isWavFormat_short_rejected (bytes : List Nat) (pos : Nat) (h : bytes.length < 44) :
    (isWavFormat (some ⟨bytes, pos⟩)).1 = false := by
  cases hres : (isWavFormat (some ⟨bytes, pos⟩)).1 with
  | false => rfl
  | true =>
    have h44 := ((isWavFormat_true_iff bytes pos).1 hres).1
    omega

theorem isWavFormat_short_rejected_witness :
    ([] : List Nat).length < 44 ∧ (isWavFormat (some ⟨[], 0⟩)).1 = false :=
  ⟨by decide, isWavFormat_short_rejected [] 0 (by decide)⟩


/-- C1 (amended): a byte sequence of 44 bytes or more is rejected by
`isWavFormat` as soon as the RIFF, WAVE or data field differs from its
4-character literal up to letter case, or the first three bytes of the format
field differ from `fmt` up to letter case. -/
theorem isWavFormat_tag_mismatch_rejected (bytes : List Nat) (pos : Nat)
    (_hlen : 44 ≤ bytes.length)
    (h : ciMatch lit_RIFF (fieldAt bytes 0 4) = false ∨
      ciMatch lit_WAVE (fieldAt bytes 8 4) = false ∨
      ciMatch lit_fmt (fieldAt bytes 12 3) = false ∨
      ciMatch lit_data (fieldAt bytes 36 4) = false) :
    (isWavFormat (some ⟨bytes, pos⟩)).1 = false := by
  cases hres : (isWavFormat (some ⟨bytes, pos⟩)).1 with
  | false => rfl
  | true =>
    obtain ⟨_, h1, h2, h3, h4⟩ := (isWavFormat_true_iff bytes pos).1 hres
    rcases h with h | h | h | h
    · rw [h1] at h; cases h
    · rw [h2] at h; cases h
    · rw [h3] at h; cases h
    · rw [h4] at h; cases h

theorem isWavFormat_tag_mismatch_rejected_witness :
    (isWavFormat (some ⟨82 :: 73 :: 70 :: 88 :: (sampleHeader 32 2 4 16).drop 4, 0⟩)).1 = false :=
  isWavFormat_tag_mismatch_rejected _ 0 (by decide) (Or.inl (by decide))

/-- C1, as stated, fails: a 44-byte header whose format field reads `fmtX`
does not match `fmt ` and is accepted all the same. -/
theorem isWavFormat_accepts_fmtX :
    44 ≤ (sampleHeader 88 2 4 16).length ∧
      ciMatch lit_fmt_sp (fieldAt (sampleHeader 88 2 4 16) 12 4) = false ∧
      (isWavFormat (some ⟨sampleHeader 88 2 4 16, 0⟩)).1 = true := by
  decide

/-! ## Hardware parameters -/

theorem shiftRight3_eq (b k : Int) : b >>> (3 : Nat) = k ↔ 8 * k ≤ b ∧ b < 8 * k + 8 := by
  rw [Int.shiftRight_eq_div_pow]
  norm_num
  omega

theorem call_trace (env : Env) (st : State) (c : Call) :
    (call env st c).2.trace = st.trace ++ [c] := rfl

theorem ite_eq_cases {α : Type} {c : Prop} [Decidable c] {a b r : α}
    (h : (if c then a else b) = r) : (c ∧ a = r) ∨ (¬c ∧ b = r) := by
  by_cases hc : c
  · left; exact ⟨hc, by rw [← h, if_pos hc]⟩
  · right; exact ⟨hc, by rw [← h, if_neg hc]⟩

/-- What `set_hwparams` asks of the device, by the value of
`bits_per_sample >> 3`. -/
theorem set_hwparams_calls (env : Env) (st : State) (h : WAV_HEADER) (info : PCM_SIZE_INFO)
    (res : Bool × PCM_SIZE_INFO × State) (hres : set_hwparams env st h info = res) :
    (∀ f, Call.snd_pcm_hw_params_set_format f ∈ issued st res.2.2 →
      (h.bits_per_sample >>> (3 : Nat) = 1 ∧ f = .U8) ∨
      (h.bits_per_sample >>> (3 : Nat) = 2 ∧ f = .S16_LE) ∨
      (h.bits_per_sample >>> (3 : Nat) = 3 ∧ f = .S24_LE)) ∧
    (res.1 = true →
      (∃ f, Call.snd_pcm_hw_params_set_format f ∈ issued st res.2.2) ∧
      Call.snd_pcm_hw_params ∈ issued st res.2.2) ∧
    ((h.bits_per_sample >>> (3 : Nat) ≠ 1 ∧ h.bits_per_sample >>> (3 : Nat) ≠ 2 ∧
        h.bits_per_sample >>> (3 : Nat) ≠ 3) →
      res.1 = false ∧
      (∀ f, Call.snd_pcm_hw_params_set_format f ∉ issued st res.2.2) ∧
      Call.snd_pcm_hw_params ∉ issued st res.2.2) := by
  unfold set_hwparams at hres
  lift_lets at hres
  extract_lets resample oc os o r1 r2 r3 sel r4 r5 rate r6 r7 bt r8 r9 size info1 r10 pt r11 r12 size1
    info2 r13 at hres
  obtain ⟨A, hA, ho⟩ : ∃ A : List Call, (∀ c ∈ A, ∃ n, c = Call.snd_pcm_open n) ∧
      o.2.trace = st.trace ++ A := by
    by_cases hh : st.g_pcm_dev_handle = true
    · exact ⟨[], by simp, by simp [o, hh]⟩
    · exact ⟨[Call.snd_pcm_open st.g_pcm_device], by simp, by simp [o, hh, os, oc, call_trace]⟩
  obtain ⟨F, hF, h4, hnil, hneg⟩ : ∃ F : List Call,
      (∀ c ∈ F, ∃ f, c = Call.snd_pcm_hw_params_set_format f ∧
        ((sel = 1 ∧ f = .U8) ∨ (sel = 2 ∧ f = .S16_LE) ∨ (sel = 3 ∧ f = .S24_LE))) ∧
      r4.2.trace = r3.2.trace ++ F ∧ (F = [] → r4.1 < 0) ∧
      ((sel ≠ 1 ∧ sel ≠ 2 ∧ sel ≠ 3) → F = []) := by
    by_cases h1 : sel = 1
    · exact ⟨[.snd_pcm_hw_params_set_format .U8], by simp [h1], by simp [r4, h1, call_trace],
        by simp, by simp [h1]⟩
    by_cases h2 : sel = 2
    · exact ⟨[.snd_pcm_hw_params_set_format .S16_LE], by simp [h2], by simp [r4, h2, call_trace],
        by simp, by simp [h2]⟩
    by_cases h3 : sel = 3
    · exact ⟨[.snd_pcm_hw_params_set_format .S24_LE], by simp [h3], by simp [r4, h3, call_trace],
        by simp, by simp [h3]⟩
    · exact ⟨[], by simp, by simp [r4, h1, h2, h3], by simp [r4, h1, h2, h3], by simp⟩
  have t1 : r1.2.trace = st.trace ++ (A ++ [.snd_pcm_hw_params_any]) := by
    simp [r1, call_trace, ho]
  have t2 : r2.2.trace = st.trace ++ (A ++ [.snd_pcm_hw_params_any,
      .snd_pcm_hw_params_set_rate_resample resample]) := by
    simp [r2, call_trace, t1]
  have t3 : r3.2.trace = st.trace ++ (A ++ [.snd_pcm_hw_params_any,
      .snd_pcm_hw_params_set_rate_resample resample,
      .snd_pcm_hw_params_set_access_rw_interleaved]) := by
    simp [r3, call_trace, t2]
  have t4 : r4.2.trace = st.trace ++ (A ++ [.snd_pcm_hw_params_any,
      .snd_pcm_hw_params_set_rate_resample resample,
      .snd_pcm_hw_params_set_access_rw_interleaved] ++ F) := by
    simp [h4, t3]
  have t5 : r5.2.trace = r4.2.trace ++ [.snd_pcm_hw_params_set_channels (wrapU 32 h.channels)] := rfl
  have t6 : r6.2.trace = r5.2.trace ++ [.snd_pcm_hw_params_set_rate_near rate] := rfl
  have t7 : r7.2.trace = r6.2.trace ++ [.snd_pcm_hw_params_get_buffer_time_max] := rfl
  have t8 : r8.2.trace = r7.2.trace ++ [.snd_pcm_hw_params_set_buffer_time_near bt] := rfl
  have t9 : r9.2.trace = r8.2.trace ++ [.snd_pcm_hw_params_get_buffer_size] := rfl
  have t10 : r10.2.trace = r9.2.trace ++ [.snd_pcm_hw_params_get_period_time_max] := rfl
  have t11 : r11.2.trace = r10.2.trace ++ [.snd_pcm_hw_params_set_period_time_near pt] := rfl
  have t12 : r12.2.trace = r11.2.trace ++ [.snd_pcm_hw_params_get_period_size] := rfl
  have t13 : r13.2.trace = r12.2.trace ++ [.snd_pcm_hw_params] := rfl
  have hsel : sel = h.bits_per_sample >>> (3 : Nat) := rfl
  clear_value resample oc os o r1 r2 r3 sel r4 r5 rate r6 r7 bt r8 r9 size info1 r10 pt r11 r12 size1 info2 r13
  have hAf : ∀ f, Call.snd_pcm_hw_params_set_format f ∉ A := by
    intro f hf; obtain ⟨n, hn⟩ := hA _ hf; cases hn
  have hAc : Call.snd_pcm_hw_params ∉ A := by
    intro hf; obtain ⟨n, hn⟩ := hA _ hf; cases hn
  have hFc : Call.snd_pcm_hw_params ∉ F := by
    intro hf; obtain ⟨n, hn, _⟩ := hF _ hf; cases hn
  have hFf : ∀ f, Call.snd_pcm_hw_params_set_format f ∈ F →
      ((sel = 1 ∧ f = .U8) ∨ (sel = 2 ∧ f = .S16_LE) ∨ (sel = 3 ∧ f = .S24_LE)) := by
    intro f hf; obtain ⟨n, hn, h⟩ := hF _ hf; cases hn; exact h
  have hFne : F ≠ [] → ∃ f, Call.snd_pcm_hw_params_set_format f ∈ F := by
    intro hne
    cases F with
    | nil => exact absurd rfl hne
    | cons c F => obtain ⟨f, hf, _⟩ := hF c (by simp); exact ⟨f, by simp [hf]⟩
  have hempty : (sel ≠ 1 ∧ sel ≠ 2 ∧ sel ≠ 3) →
      ∀ f, Call.snd_pcm_hw_params_set_format f ∉ F := by
    intro hs f hf
    rw [hneg hs] at hf
    cases hf
  iterate 14 (replace hres := ite_eq_cases hres; rcases hres with ⟨c, hres⟩ | ⟨c, hres⟩; rotate_left)
  all_goals subst hres
  all_goals simp only [issued, ho, t1, t2, t3, t4, t5, t6, t7, t8, t9, t10, t11, t12, t13,
    List.append_assoc, List.drop_left, List.mem_append, List.mem_cons, List.mem_singleton,
    List.mem_nil_iff, reduceCtorEq, or_false, false_or, List.singleton_append, List.cons_append,
    List.nil_append, ← hsel]
  all_goals simp only [hAf, hAc, hFc, false_or, or_false, false_implies, not_false_eq_true,
    implies_true, and_true, true_and, Bool.false_eq_true, exists_const, exists_false,
    IsEmpty.forall_iff, not_true_eq_false]
  all_goals first
    | exact ⟨hFf, hempty⟩
    | exact ⟨hFf, fun hs => False.elim (by have := hnil (hneg hs); omega)⟩
    | exact ⟨hFf, fun _ => hFne (fun e => by have := hnil e; omega),
        fun hs => False.elim (by have := hnil (hneg hs); omega)⟩

theorem take_issued (st s : State) (P rest : List Call)
    (h : s.trace = st.trace ++ (P ++ rest)) : (issued st s).take P.length = P := by
  simp [issued, h]

theorem trace_step (base P : List Call) (s s1 : State) (c : Call)
    (h : ∃ xs, s.trace = base ++ (P ++ xs)) (hs : s1.trace = s.trace ++ [c]) :
    ∃ xs, s1.trace = base ++ (P ++ xs) := by
  obtain ⟨xs, hx⟩ := h
  exact ⟨xs ++ [c], by rw [hs, hx]; simp⟩

/-- When the device accepts the calls that come first, `set_hwparams` goes on
to request the format chosen by `bits_per_sample >> 3`. -/
theorem set_hwparams_requests (env : Env) (st : State) (h : WAV_HEADER) (info : PCM_SIZE_INFO)
    (res : Bool × PCM_SIZE_INFO × State) (hres : set_hwparams env st h info = res)
    (hacc : Accepts env st (hwPrefix st)) :
    ∃ F : List Call, (issued st res.2.2).take (hwPrefix st ++ F).length = hwPrefix st ++ F ∧
      (h.bits_per_sample >>> (3 : Nat) = 1 → F = [.snd_pcm_hw_params_set_format .U8]) ∧
      (h.bits_per_sample >>> (3 : Nat) = 2 → F = [.snd_pcm_hw_params_set_format .S16_LE]) ∧
      (h.bits_per_sample >>> (3 : Nat) = 3 → F = [.snd_pcm_hw_params_set_format .S24_LE]) := by
  unfold set_hwparams at hres
  lift_lets at hres
  extract_lets resample oc os o r1 r2 r3 sel r4 r5 rate r6 r7 bt r8 r9 size info1 r10 pt r11 r12 size1
    info2 r13 at hres
  obtain ⟨A, hpre, ho, ho1⟩ : ∃ A : List Call,
      hwPrefix st = A ++ [.snd_pcm_hw_params_any, .snd_pcm_hw_params_set_rate_resample resample,
        .snd_pcm_hw_params_set_access_rw_interleaved] ∧
      o.2.trace = st.trace ++ A ∧ 0 ≤ o.1 := by
    by_cases hh : st.g_pcm_dev_handle = true
    · exact ⟨[], by simp [hwPrefix, hh, resample], by simp [o, hh], by simp [o, hh]⟩
    · refine ⟨[Call.snd_pcm_open st.g_pcm_device], by simp [hwPrefix, hh, resample],
        by simp [o, hh, os, oc, call_trace], ?_⟩
      have := hacc 0 (by simp [hwPrefix])
      simpa [o, hh, oc, call, hwPrefix] using this
  have hacc2 : ∀ k, k < A.length + 3 → 0 ≤ env.resp (st.trace ++
      (A ++ [Call.snd_pcm_hw_params_any, Call.snd_pcm_hw_params_set_rate_resample resample,
        Call.snd_pcm_hw_params_set_access_rw_interleaved]).take (k + 1)) := by
    intro k hk
    have := hacc k (by rw [hpre]; simpa using hk)
    rwa [hpre] at this
  have t1 : r1.2.trace = st.trace ++ (A ++ [.snd_pcm_hw_params_any]) := by
    simp [r1, call_trace, ho]
  have t2 : r2.2.trace = st.trace ++ (A ++ [.snd_pcm_hw_params_any,
      .snd_pcm_hw_params_set_rate_resample resample]) := by
    simp [r2, call_trace, t1]
  have t3 : r3.2.trace = st.trace ++ (A ++ [.snd_pcm_hw_params_any,
      .snd_pcm_hw_params_set_rate_resample resample,
      .snd_pcm_hw_params_set_access_rw_interleaved]) := by
    simp [r3, call_trace, t2]
  have a1 : 0 ≤ r1.1 := by
    have := hacc2 A.length (by omega)
    simpa [r1, call, ho, List.take_append] using this
  have a2 : 0 ≤ r2.1 := by
    have := hacc2 (A.length + 1) (by omega)
    simpa [r2, call, t1, List.take_append, Nat.add_assoc] using this
  have a3 : 0 ≤ r3.1 := by
    have := hacc2 (A.length + 2) (by omega)
    simpa [r3, call, t2, List.take_append, Nat.add_assoc] using this
  obtain ⟨F, h4, hF1, hF2, hF3⟩ : ∃ F : List Call, r4.2.trace = r3.2.trace ++ F ∧
      (sel = 1 → F = [.snd_pcm_hw_params_set_format .U8]) ∧
      (sel = 2 → F = [.snd_pcm_hw_params_set_format .S16_LE]) ∧
      (sel = 3 → F = [.snd_pcm_hw_params_set_format .S24_LE]) := by
    by_cases h1 : sel = 1
    · exact ⟨[.snd_pcm_hw_params_set_format .U8], by simp [r4, h1, call_trace],
        by simp, by simp [h1], by simp [h1]⟩
    by_cases h2 : sel = 2
    · exact ⟨[.snd_pcm_hw_params_set_format .S16_LE], by simp [r4, h2, call_trace],
        by simp [h2], by simp, by simp [h2]⟩
    by_cases h3 : sel = 3
    · exact ⟨[.snd_pcm_hw_params_set_format .S24_LE], by simp [r4, h3, call_trace],
        by simp [h3], by simp [h3], by simp⟩
    · exact ⟨[], by simp [r4, h1, h2, h3], by simp [h1], by simp [h2], by simp [h3]⟩
  have u4 : r4.2.trace = st.trace ++ ((hwPrefix st ++ F) ++ []) := by
    rw [h4, t3, hpre]; simp
  have x4 : ∃ xs, r4.2.trace = st.trace ++ ((hwPrefix st ++ F) ++ xs) := ⟨[], u4⟩
  have x5 := trace_step st.trace (hwPrefix st ++ F) r4.2 r5.2 _ x4 rfl
  have x6 := trace_step st.trace (hwPrefix st ++ F) r5.2 r6.2 _ x5 rfl
  have x7 := trace_step st.trace (hwPrefix st ++ F) r6.2 r7.2 _ x6 rfl
  have x8 := trace_step st.trace (hwPrefix st ++ F) r7.2 r8.2 _ x7 rfl
  have x9 := trace_step st.trace (hwPrefix st ++ F) r8.2 r9.2 _ x8 rfl
  have x10 := trace_step st.trace (hwPrefix st ++ F) r9.2 r10.2 _ x9 rfl
  have x11 := trace_step st.trace (hwPrefix st ++ F) r10.2 r11.2 _ x10 rfl
  have x12 := trace_step st.trace (hwPrefix st ++ F) r11.2 r12.2 _ x11 rfl
  have x13 := trace_step st.trace (hwPrefix st ++ F) r12.2 r13.2 _ x12 rfl
  have hsel : sel = h.bits_per_sample >>> (3 : Nat) := rfl
  rw [← hsel]
  clear hacc2 t1 t2 t3 h4 u4 hpre
  clear_value oc os o r1 r2 r3 sel r4 r5 rate r6 r7 bt r8 r9 size info1 r10 pt r11 r12
    size1 info2 r13
  have fin : ∀ s : State, (∃ xs, s.trace = st.trace ++ ((hwPrefix st ++ F) ++ xs)) →
      ∃ F : List Call, (issued st s).take (hwPrefix st ++ F).length = hwPrefix st ++ F ∧
        (sel = 1 → F = [.snd_pcm_hw_params_set_format .U8]) ∧
        (sel = 2 → F = [.snd_pcm_hw_params_set_format .S16_LE]) ∧
        (sel = 3 → F = [.snd_pcm_hw_params_set_format .S24_LE]) := by
    intro s hs
    obtain ⟨xs, hx⟩ := hs
    exact ⟨F, take_issued st s _ xs hx, hF1, hF2, hF3⟩
  iterate 14 (replace hres := ite_eq_cases hres; rcases hres with ⟨c, hres⟩ | ⟨c, hres⟩; rotate_left)
  all_goals subst hres
  all_goals first
    | omega
    | exact fin _ x4
    | exact fin _ x5
    | exact fin _ x6
    | exact fin _ x7
    | exact fin _ x8
    | exact fin _ x9
    | exact fin _ x10
    | exact fin _ x11
    | exact fin _ x12
    | exact fin _ x13

/-- C3 (amended): `set_hwparams` chooses the encoding from
`bits_per_sample >> 3`. Once the device has accepted the calls made before the
choice, the next call requests U8 for 8..15 bits (so 8 selects U8), S16_LE for
16..23 bits (so 16 selects S16_LE), S24_LE for 24..31 bits (so 24 selects
S24_LE). No other encoding is ever requested; when `set_hwparams` returns true
it has requested one and committed. For every value below 8 (negative ones
included) or from 32 on, it requests no encoding, returns false and never
issues the commit `snd_pcm_hw_params`. -/
theorem set_hwparams_encoding (env : Env) (st : State) (h : WAV_HEADER) (info : PCM_SIZE_INFO) :
    (Accepts env st (hwPrefix st) →
      (8 ≤ h.bits_per_sample ∧ h.bits_per_sample < 16 →
        ∃ rest, issued st (set_hwparams env st h info).2.2 =
          hwPrefix st ++ Call.snd_pcm_hw_params_set_format .U8 :: rest) ∧
      (16 ≤ h.bits_per_sample ∧ h.bits_per_sample < 24 →
        ∃ rest, issued st (set_hwparams env st h info).2.2 =
          hwPrefix st ++ Call.snd_pcm_hw_params_set_format .S16_LE :: rest) ∧
      (24 ≤ h.bits_per_sample ∧ h.bits_per_sample < 32 →
        ∃ rest, issued st (set_hwparams env st h info).2.2 =
          hwPrefix st ++ Call.snd_pcm_hw_params_set_format .S24_LE :: rest)) ∧
    (∀ f, Call.snd_pcm_hw_params_set_format f ∈ issued st (set_hwparams env st h info).2.2 →
      (8 ≤ h.bits_per_sample ∧ h.bits_per_sample < 16 ∧ f = .U8) ∨
      (16 ≤ h.bits_per_sample ∧ h.bits_per_sample < 24 ∧ f = .S16_LE) ∨
      (24 ≤ h.bits_per_sample ∧ h.bits_per_sample < 32 ∧ f = .S24_LE)) ∧
    ((set_hwparams env st h info).1 = true →
      (∃ f, Call.snd_pcm_hw_params_set_format f ∈ issued st (set_hwparams env st h info).2.2) ∧
      Call.snd_pcm_hw_params ∈ issued st (set_hwparams env st h info).2.2) ∧
    ((h.bits_per_sample < 8 ∨ 32 ≤ h.bits_per_sample) →
      (set_hwparams env st h info).1 = false ∧
      (∀ f, Call.snd_pcm_hw_params_set_format f ∉ issued st (set_hwparams env st h info).2.2) ∧
      Call.snd_pcm_hw_params ∉ issued st (set_hwparams env st h info).2.2) := by
  obtain ⟨h1, h2, h3⟩ := set_hwparams_calls env st h info _ rfl
  refine ⟨fun hacc => ?_, fun f hf => ?_, h2, fun hb => h3 ?_⟩
  · obtain ⟨F, hF, hF1, hF2, hF3⟩ := set_hwparams_requests env st h info _ rfl hacc
    obtain ⟨rest, hrest⟩ : ∃ rest, issued st (set_hwparams env st h info).2.2 =
        (hwPrefix st ++ F) ++ rest := by
      have hsplit := List.take_append_drop (hwPrefix st ++ F).length
        (issued st (set_hwparams env st h info).2.2)
      rw [hF] at hsplit
      exact ⟨_, hsplit.symm⟩
    refine ⟨fun hb => ?_, fun hb => ?_, fun hb => ?_⟩
    · rw [hF1 ((shiftRight3_eq _ 1).2 ⟨by omega, by omega⟩)] at hrest
      exact ⟨rest, by rw [hrest]; simp⟩
    · rw [hF2 ((shiftRight3_eq _ 2).2 ⟨by omega, by omega⟩)] at hrest
      exact ⟨rest, by rw [hrest]; simp⟩
    · rw [hF3 ((shiftRight3_eq _ 3).2 ⟨by omega, by omega⟩)] at hrest
      exact ⟨rest, by rw [hrest]; simp⟩
  · rcases h1 f hf with ⟨hs, hf⟩ | ⟨hs, hf⟩ | ⟨hs, hf⟩
    · rw [shiftRight3_eq] at hs
      exact Or.inl ⟨by omega, by omega, hf⟩
    · rw [shiftRight3_eq] at hs
      exact Or.inr (Or.inl ⟨by omega, by omega, hf⟩)
    · rw [shiftRight3_eq] at hs
      exact Or.inr (Or.inr ⟨by omega, by omega, hf⟩)
  · simp only [ne_eq, shiftRight3_eq]
    omega

theorem set_hwparams_encoding_witness :
    (∃ rest, issued State.init
        (set_hwparams (okEnv 1024) State.init (headerOfBytes (sampleHeader 32 2 4 16)) ⟨0, 0⟩).2.2
        = hwPrefix State.init ++ Call.snd_pcm_hw_params_set_format .S16_LE :: rest) ∧
      (set_hwparams (okEnv 1024) State.init (headerOfBytes (sampleHeader 32 2 4 32)) ⟨0, 0⟩).1
        = false ∧
      Call.snd_pcm_hw_params ∉ issued State.init
        (set_hwparams (okEnv 1024) State.init (headerOfBytes (sampleHeader 32 2 4 32)) ⟨0, 0⟩).2.2 :=
  have w := (set_hwparams_encoding (okEnv 1024) State.init
    (headerOfBytes (sampleHeader 32 2 4 32)) ⟨0, 0⟩).2.2.2 (Or.inr (by decide))
  ⟨((set_hwparams_encoding (okEnv 1024) State.init
      (headerOfBytes (sampleHeader 32 2 4 16)) ⟨0, 0⟩).1 (fun _ _ => le_refl _)).2.1
      ⟨by decide, by decide⟩, w.1, w.2.2⟩

/-- C3, as stated, fails at `bits_per_sample = 12`: the header is accepted, the
encoding U8 is requested, `set_hwparams` returns true and the commit is
issued. -/
theorem set_hwparams_12_bits_selects_U8 :
    (isWavFormat (some ⟨sampleHeader 32 2 4 12, 0⟩)).1 = true ∧
      (headerOfBytes (sampleHeader 32 2 4 12)).bits_per_sample = 12 ∧
      Call.snd_pcm_hw_params_set_format .U8 ∈ issued State.init
        (set_hwparams (okEnv 1024) State.init (headerOfBytes (sampleHeader 32 2 4 12)) ⟨0, 0⟩).2.2 ∧
      (set_hwparams (okEnv 1024) State.init (headerOfBytes (sampleHeader 32 2 4 12)) ⟨0, 0⟩).1
        = true ∧
      Call.snd_pcm_hw_params ∈ issued State.init
        (set_hwparams (okEnv 1024) State.init (headerOfBytes (sampleHeader 32 2 4 12)) ⟨0, 0⟩).2.2 := by
  decide


/-! ## Software parameters -/

theorem wrapS_of_range (w : Nat) (x : Int) (h0 : 0 ≤ x) (h1 : x < (2 : Int) ^ (w - 1))
    (hw : 0 < w) : wrapS w x = x := by
  have h2 : (2 : Int) ^ w = 2 * (2 : Int) ^ (w - 1) := by
    obtain ⟨k, rfl⟩ : ∃ k, w = k + 1 := ⟨w - 1, by omega⟩
    simp [pow_succ, mul_comm]
  have h3 : x % (2 : Int) ^ w = x := Int.emod_eq_of_lt h0 (by omega)
  simp [wrapS, h3, h1]

theorem wrapU_of_range (w : Nat) (x : Int) (h0 : 0 ≤ x) (h1 : x < (2 : Int) ^ w) :
    ((wrapU w x : Nat) : Int) = x := by
  have h3 : x % (2 : Int) ^ w = x := Int.emod_eq_of_lt h0 h1
  simp [wrapU, h3, h0]

/-- C6: for strictly positive buffer and period sizes `b` and `p` (values of a
C `long`), `set_swparams` returns. Once `snd_pcm_sw_params_current` has
succeeded, its next call passes the start threshold `t = (b / p) * p`, and once
that has succeeded, the next call passes the minimum-available threshold `p`;
when all four calls succeed these four are all it does and it returns true.
The threshold `t` is a multiple of `p`, at most `b` and within less than `p` of
`b`, and no other start threshold or minimum-available threshold is ever
passed. -/
theorem set_swparams_thresholds (env : Env) (st : State) (info : PCM_SIZE_INFO)
    (hb : 0 < info.pcm_buffer_size) (hp : 0 < info.pcm_period_size)
    (hbmax : info.pcm_buffer_size < 2 ^ 63) (hpmax : info.pcm_period_size < 2 ^ 63) :
    ∃ res, set_swparams env st info = some res ∧
      (∀ t, Call.snd_pcm_sw_params_set_start_threshold t ∈ issued st res.2 →
        (t : Int) = (info.pcm_buffer_size / info.pcm_period_size) * info.pcm_period_size ∧
        info.pcm_period_size ∣ (t : Int) ∧ (t : Int) ≤ info.pcm_buffer_size ∧
        info.pcm_buffer_size - (t : Int) < info.pcm_period_size) ∧
      (∀ a, Call.snd_pcm_sw_params_set_avail_min a ∈ issued st res.2 →
        (a : Int) = info.pcm_period_size) ∧
      (res.1 = true →
        (∃ t, Call.snd_pcm_sw_params_set_start_threshold t ∈ issued st res.2) ∧
        (∃ a, Call.snd_pcm_sw_params_set_avail_min a ∈ issued st res.2)) ∧
      (0 ≤ env.resp (st.trace ++ [Call.snd_pcm_sw_params_current]) →
        ∃ rest, issued st res.2 = Call.snd_pcm_sw_params_current ::
          Call.snd_pcm_sw_params_set_start_threshold
            ((info.pcm_buffer_size / info.pcm_period_size) * info.pcm_period_size).toNat ::
          rest) ∧
      (0 ≤ env.resp (st.trace ++ [Call.snd_pcm_sw_params_current]) →
        0 ≤ env.resp (st.trace ++ [Call.snd_pcm_sw_params_current,
          Call.snd_pcm_sw_params_set_start_threshold
            ((info.pcm_buffer_size / info.pcm_period_size) * info.pcm_period_size).toNat]) →
        ∃ rest, issued st res.2 = Call.snd_pcm_sw_params_current ::
          Call.snd_pcm_sw_params_set_start_threshold
            ((info.pcm_buffer_size / info.pcm_period_size) * info.pcm_period_size).toNat ::
          Call.snd_pcm_sw_params_set_avail_min info.pcm_period_size.toNat :: rest) ∧
      (Accepts env st [Call.snd_pcm_sw_params_current,
          Call.snd_pcm_sw_params_set_start_threshold
            ((info.pcm_buffer_size / info.pcm_period_size) * info.pcm_period_size).toNat,
          Call.snd_pcm_sw_params_set_avail_min info.pcm_period_size.toNat,
          Call.snd_pcm_sw_params] →
        res.1 = true ∧ issued st res.2 = [Call.snd_pcm_sw_params_current,
          Call.snd_pcm_sw_params_set_start_threshold
            ((info.pcm_buffer_size / info.pcm_period_size) * info.pcm_period_size).toNat,
          Call.snd_pcm_sw_params_set_avail_min info.pcm_period_size.toNat,
          Call.snd_pcm_sw_params]) := by
  obtain ⟨b, p⟩ := info
  simp only at hb hp hbmax hpmax
  have hdiv : Int.tdiv b p = b / p := by
    rw [Int.tdiv_eq_ediv] <;> omega
  have hq0 : 0 ≤ b / p := Int.ediv_nonneg (by omega) (by omega)
  have hle : b / p * p ≤ b := Int.ediv_mul_le b (by omega)
  have hlt : b - b / p * p < p := by
    have := Int.lt_ediv_add_one_mul_self b hp
    linarith
  have ht0 : 0 ≤ b / p * p := Int.mul_nonneg hq0 (by omega)
  have hT : ((wrapU 64 (wrapS 64 (b / p * p)) : Nat) : Int) = b / p * p := by
    rw [wrapS_of_range 64 _ ht0 (by norm_num; omega) (by norm_num)]
    exact wrapU_of_range 64 _ ht0 (by norm_num; omega)
  have hP : ((wrapU 64 p : Nat) : Int) = p := wrapU_of_range 64 _ (by omega) (by norm_num; omega)
  have hT1 : wrapU 64 (wrapS 64 (b / p * p)) = (b / p * p).toNat := by omega
  have hP1 : wrapU 64 p = p.toNat := by omega
  have hT2 : (((b / p * p).toNat : Nat) : Int) = b / p * p := by omega
  have hP2 : ((p.toNat : Nat) : Int) = p := by omega
  have hne : ¬(p = 0 ∨ b = -2 ^ 63 ∧ p = -1) := by omega
  have key : ∀ t : Nat, t = (b / p * p).toNat →
      (t : Int) = b / p * p ∧ p ∣ (t : Int) ∧ (t : Int) ≤ b ∧ b - (t : Int) < p := by
    intro t ht
    rw [ht, hT2]
    exact ⟨rfl, Dvd.intro_left _ rfl, hle, hlt⟩
  have acc : ∀ cs : List Call, Accepts env st cs → ∀ k, k < cs.length →
      0 ≤ env.resp (st.trace ++ cs.take (k + 1)) := fun _ h => h
  unfold set_swparams
  simp only [call, hdiv, hne, ↓reduceIte, ne_eq, not_true_eq_false, false_and, issued, hT1, hP1,
    List.append_assoc, List.singleton_append, List.cons_append, List.nil_append]
  split_ifs
  all_goals simp only [Option.some.injEq, exists_eq_left', List.append_assoc, List.drop_left,
    List.singleton_append, List.cons_append, List.nil_append, List.mem_cons, List.mem_singleton,
    List.mem_nil_iff, reduceCtorEq, or_false, false_or, Bool.false_eq_true, false_implies,
    implies_true, and_true, true_and, Call.snd_pcm_sw_params_set_start_threshold.injEq,
    Call.snd_pcm_sw_params_set_avail_min.injEq, exists_eq, forall_eq', IsEmpty.forall_iff,
    List.cons.injEq, exists_eq', false_and, and_false, exists_false, imp_false]
  · refine ⟨by omega, fun _ => by omega, fun ha => ?_⟩
    have := ha 0 (by simp)
    simp only [List.take_succ_cons, List.take_zero] at this
    omega
  · refine ⟨key, fun _ => by omega, fun ha => ?_⟩
    have := ha 1 (by simp)
    simp only [List.take_succ_cons, List.take_zero] at this
    omega
  · refine ⟨key, fun a ha => by rw [ha, hP2], fun ha => ?_⟩
    have := ha 2 (by simp)
    simp only [List.take_succ_cons, List.take_zero] at this
    omega
  · refine ⟨key, fun a ha => by rw [ha, hP2], fun ha => ?_⟩
    have := ha 3 (by simp)
    simp only [List.take_succ_cons, List.take_zero] at this
    omega
  · exact ⟨key, fun a ha => by rw [ha, hP2]⟩

theorem set_swparams_thresholds_witness :
    ∃ res, set_swparams (okEnv 1024) State.init ⟨1030, 100⟩ = some res ∧
      res.1 = true ∧
      issued State.init res.2 = [Call.snd_pcm_sw_params_current,
        Call.snd_pcm_sw_params_set_start_threshold 1000,
        Call.snd_pcm_sw_params_set_avail_min 100, Call.snd_pcm_sw_params] :=
  (set_swparams_thresholds (okEnv 1024) State.init ⟨1030, 100⟩ (by decide) (by decide)
    (by norm_num) (by norm_num)).imp fun _ h =>
      ⟨h.1, h.2.2.2.2.2.2 (fun _ _ => le_refl _)⟩

/-! ## Recovery -/

theorem issued_call (env : Env) (st : State) (c : Call) :
    issued st (call env st c).2 = [c] := by
  simp [issued, call]

theorem failedWrite_trace (env : Env) (st : State) (buf : List Nat) (period : Int) :
    (failedWrite env st buf period).2.trace =
      st.trace ++ [.snd_pcm_writei buf (wrapU 64 period), .usleep 1000] := by
  simp [failedWrite, readFlag, call]

/-- One turn of the write loop, by the result of the write. -/
theorem writeLoop_succ (fuel : Nat) (env : Env) (buf : List Nat) (period : Int) (st : State) :
    writeLoop (fuel + 1) env buf period st =
      if 0 > writeErr env st buf period then
        if (failedWrite env st buf period).1 then some (failedWrite env st buf period).2
        else if -EAGAIN = writeErr env st buf period then
          writeLoop fuel env buf period (failedWrite env st buf period).2
        else if 0 > writeErr env st buf period then
          (xrun_recovery fuel env (failedWrite env st buf period).2
            (writeErr env st buf period)).map Prod.snd
        else writeLoop fuel env buf period (failedWrite env st buf period).2
      else some (call env st (.snd_pcm_writei buf (wrapU 64 period))).2 := by
  simp only [writeLoop, writeErr, failedWrite, call]
  split_ifs <;> first | rfl | (cases xrun_recovery fuel env _ _ <;> rfl)

/-- C7 (amended): given `-EPIPE`, `xrun_recovery` issues exactly one
`snd_pcm_prepare` and no resume, and returns 0 whatever the prepare returned;
the write loop then gives up the buffer without writing it again, so the
period is skipped whether or not the prepare succeeded. -/
theorem xrun_recovery_underrun (fuel : Nat) (env : Env) (st : State) :
    (∃ st1, xrun_recovery fuel env st (-EPIPE) = some (0, st1) ∧
      issued st st1 = [Call.snd_pcm_prepare]) ∧
    (∀ (buf : List Nat) (period : Int), writeErr env st buf period = -EPIPE →
      (failedWrite env st buf period).1 = false →
      ∃ st2, writeLoop (fuel + 1) env buf period st = some st2 ∧
        issued st st2 = [.snd_pcm_writei buf (wrapU 64 period), .usleep 1000,
          .snd_pcm_prepare]) := by
  constructor
  · exact ⟨(call env st .snd_pcm_prepare).2, by simp [xrun_recovery], issued_call env st _⟩
  · intro buf period herr hflag
    have hE : (-EAGAIN : Int) ≠ -EPIPE := by decide
    have hneg : (0 : Int) > -EPIPE := by decide
    refine ⟨(call env (failedWrite env st buf period).2 .snd_pcm_prepare).2, ?_, ?_⟩
    · rw [writeLoop_succ]
      simp [herr, hflag, hE, hneg, xrun_recovery]
    · simp [issued, call, failedWrite_trace]

theorem xrun_recovery_underrun_witness :
    ∃ st2, writeLoop 1 { prepareFailsEnv with resp := fun _ => -32 } [1, 2, 3, 4] 1 State.init
        = some st2 ∧
      issued State.init st2 = [.snd_pcm_writei [1, 2, 3, 4] (wrapU 64 1), .usleep 1000,
        .snd_pcm_prepare] :=
  (xrun_recovery_underrun 0 { prepareFailsEnv with resp := fun _ => -32 } State.init).2
    [1, 2, 3, 4] 1 (by decide) (by decide)

/-- C7, as stated, fails: when the prepare issued for an under-run fails,
`xrun_recovery` still returns 0, not a negative result. -/
theorem xrun_recovery_prepare_failure_returns_zero :
    (call prepareFailsEnv State.init .snd_pcm_prepare).1 < 0 ∧
      (xrun_recovery 1 prepareFailsEnv State.init (-EPIPE)).map Prod.fst = some 0 := by
  decide


/-! ## Cancellation -/

/-- The polling loop entered with the flag set and `counter` turns done: it
makes at most `100 - counter` pauses, stops at the first poll at which the other
thread has cleared the flag, and touches nothing but the flag. -/
theorem terminateLoop_spec (env : Env) (d : Nat) :
    ∀ (counter : Nat) (s : State), 100 - counter = d → s.g_terminate_flag = true →
      ∃ n, n ≤ d ∧
        (terminateLoop env counter s).trace = s.trace ++ List.replicate n (Call.usleep 100) ∧
        (terminateLoop env counter s).g_pcm_device = s.g_pcm_device ∧
        (terminateLoop env counter s).g_pcm_dev_handle = s.g_pcm_dev_handle ∧
        (∀ k, k < d → env.other (s.reads + k) = some false →
          (∀ j, j < k → env.other (s.reads + j) ≠ some false) →
          n = k + 1 ∧ (terminateLoop env counter s).g_terminate_flag = false) ∧
        ((∀ k, k < d → env.other (s.reads + k) ≠ some false) →
          n = d ∧ (terminateLoop env counter s).g_terminate_flag = true) := by
  induction d with
  | zero =>
    intro counter s hd hf
    have hc : ¬ 100 > counter := by omega
    rw [terminateLoop, if_neg hc]
    exact ⟨0, le_refl _, by simp, rfl, rfl, fun k hk => absurd hk (by omega), fun _ => ⟨rfl, hf⟩⟩
  | succ d ih =>
    intro counter s hd hf
    have hc : 100 > counter := by omega
    rw [terminateLoop, if_pos hc]
    simp only [readFlag, call, hf]
    cases ho : env.other s.reads with
    | none =>
      simp only [Option.getD_none, Bool.true_eq_false, ↓reduceIte]
      obtain ⟨n, hn, htr, hdev, hh, hfirst, hnone⟩ := ih (counter + 1)
        { g_terminate_flag := true, g_pcm_device := s.g_pcm_device,
          g_pcm_dev_handle := s.g_pcm_dev_handle, trace := s.trace ++ [Call.usleep 100],
          reads := s.reads + 1 } (by omega) rfl
      refine ⟨n + 1, by omega, ?_, hdev, hh, ?_, ?_⟩
      · rw [htr]; simp [List.replicate_succ]
      · intro k hk hk0 hbefore
        cases k with
        | zero => simp [ho] at hk0
        | succ k =>
          have := hfirst k (by omega) (by simpa [Nat.add_assoc, Nat.add_comm 1 k] using hk0)
            (fun j hj => by
              have := hbefore (j + 1) (by omega)
              simpa [Nat.add_assoc, Nat.add_comm 1 j] using this)
          exact ⟨by omega, this.2⟩
      · intro hall
        have := hnone (fun k hk => by
          have := hall (k + 1) (by omega)
          simpa [Nat.add_assoc, Nat.add_comm 1 k] using this)
        exact ⟨by omega, this.2⟩
    | some b =>
      cases b with
      | false =>
        simp only [Option.getD_some, ↓reduceIte]
        refine ⟨1, by omega, by simp, by simp, by simp, ?_, ?_⟩
        · intro k hk hk0 hbefore
          cases k with
          | zero => simp
          | succ k => exact absurd ho (by simpa using hbefore 0 (by omega))
        · intro hall
          exact absurd ho (by simpa using hall 0 (by omega))
      | true =>
        simp only [Option.getD_some, Bool.true_eq_false, ↓reduceIte]
        obtain ⟨n, hn, htr, hdev, hh, hfirst, hnone⟩ := ih (counter + 1)
          { g_terminate_flag := true, g_pcm_device := s.g_pcm_device,
            g_pcm_dev_handle := s.g_pcm_dev_handle, trace := s.trace ++ [Call.usleep 100],
            reads := s.reads + 1 } (by omega) rfl
        refine ⟨n + 1, by omega, ?_, hdev, hh, ?_, ?_⟩
        · rw [htr]; simp [List.replicate_succ]
        · intro k hk hk0 hbefore
          cases k with
          | zero => simp [ho] at hk0
          | succ k =>
            have := hfirst k (by omega) (by simpa [Nat.add_assoc, Nat.add_comm 1 k] using hk0)
              (fun j hj => by
                have := hbefore (j + 1) (by omega)
                simpa [Nat.add_assoc, Nat.add_comm 1 j] using this)
            exact ⟨by omega, this.2⟩
        · intro hall
          have := hnone (fun k hk => by
            have := hall (k + 1) (by omega)
            simpa [Nat.add_assoc, Nat.add_comm 1 k] using this)
          exact ⟨by omega, this.2⟩

/-- C8: `terminate_last_one` returns after at most 100 pauses of 100 µs, and
these pauses are all it does outside the program. When it finds the flag set on
entry it makes no pause and leaves the globals as they are. Otherwise it stops
at the first poll at which the other thread has cleared the flag, and after
100 polls if that never happens. -/
theorem terminate_last_one_bounded (env : Env) (st : State) :
    ∃ n, n ≤ 100 ∧
      issued st (terminate_last_one env st) = List.replicate n (Call.usleep 100) ∧
      ((readFlag env st).1 = true →
        n = 0 ∧ terminate_last_one env st =
          { st with g_terminate_flag := true, reads := st.reads + 1 }) ∧
      ((readFlag env st).1 = false →
        (∀ k, k < 100 → env.other (st.reads + 1 + k) = some false →
          (∀ j, j < k → env.other (st.reads + 1 + j) ≠ some false) →
          n = k + 1 ∧ (terminate_last_one env st).g_terminate_flag = false) ∧
        ((∀ k, k < 100 → env.other (st.reads + 1 + k) ≠ some false) →
          n = 100 ∧ (terminate_last_one env st).g_terminate_flag = true)) := by
  cases hf : (readFlag env st).1 with
  | true =>
    refine ⟨0, by omega, ?_, fun _ => ⟨rfl, ?_⟩, fun h => by cases h⟩
    · simp only [readFlag] at hf
      simp [terminate_last_one, issued, readFlag, hf]
    · simp only [terminate_last_one, hf, Bool.true_eq_false, ↓reduceIte]
      simp only [readFlag] at hf ⊢
      rw [hf]
  | false =>
    obtain ⟨n, hn, htr, _, _, hfirst, hnone⟩ := terminateLoop_spec env 100 0
      { (readFlag env st).2 with g_terminate_flag := true } rfl rfl
    refine ⟨n, hn, ?_, (fun h => by cases h), fun _ => ⟨?_, ?_⟩⟩
    · simp only [terminate_last_one, hf, ↓reduceIte, issued, htr]
      simp [readFlag]
    · intro k hk hk0 hbefore
      simpa only [terminate_last_one, hf, ↓reduceIte] using hfirst k hk hk0 hbefore
    · intro hall
      simpa only [terminate_last_one, hf, ↓reduceIte] using hnone hall

theorem terminate_last_one_bounded_witness :
    ∃ n, n ≤ 100 ∧ issued State.init (terminate_last_one (okEnv 1) State.init)
      = List.replicate n (Call.usleep 100) :=
  (terminate_last_one_bounded (okEnv 1) State.init).imp fun _ h => ⟨h.1, h.2.1⟩


/-! ## Streaming -/

theorem readFlag_noCancel (env : Env) (st : State) (h : NoCancel env st) :
    (readFlag env st).1 = false ∧ NoCancel env (readFlag env st).2 ∧
      (readFlag env st).2.trace = st.trace := by
  obtain ⟨hf, ho⟩ := h
  have hv : (env.other st.reads).getD st.g_terminate_flag = false := by
    cases hk : env.other st.reads with
    | none => simpa using hf
    | some b =>
      cases b with
      | false => rfl
      | true => exact absurd hk (ho _)
  exact ⟨hv, ⟨hv, ho⟩, rfl⟩

theorem resumeLoop_flag (env : Env) :
    ∀ (fuel : Nat) (st : State) (r : Int × State), resumeLoop fuel env st = some r →
      r.2.g_terminate_flag = st.g_terminate_flag ∧
        ∃ xs, r.2.trace = st.trace ++ xs ∧ ∀ c ∈ xs, Call.isWrite c = false := by
  intro fuel
  induction fuel with
  | zero => intro st r h; simp [resumeLoop] at h
  | succ n ih =>
    intro st r h
    simp only [resumeLoop] at h
    split at h
    · obtain ⟨h1, xs, h2, h3⟩ := ih _ _ h
      refine ⟨h1, Call.snd_pcm_resume :: Call.sleep 1 :: xs, by simp [h2, call], ?_⟩
      intro c hc
      simp only [List.mem_cons] at hc
      rcases hc with rfl | rfl | hc
      · rfl
      · rfl
      · exact h3 c hc
    · cases h
      refine ⟨rfl, [Call.snd_pcm_resume], rfl, ?_⟩
      intro c hc
      simp only [List.mem_singleton] at hc
      subst hc
      rfl

theorem xrun_recovery_flag (fuel : Nat) (env : Env) (st : State) (err : Int) (r : Int × State)
    (h : xrun_recovery fuel env st err = some r) :
    r.2.g_terminate_flag = st.g_terminate_flag ∧
      ∃ xs, r.2.trace = st.trace ++ xs ∧ ∀ c ∈ xs, Call.isWrite c = false := by
  unfold xrun_recovery at h
  split at h
  · cases h
    refine ⟨rfl, [Call.snd_pcm_prepare], rfl, ?_⟩
    intro c hc
    simp only [List.mem_singleton] at hc
    subst hc
    rfl
  · split at h
    · cases hr : resumeLoop fuel env st with
      | none => simp [hr] at h
      | some q =>
        obtain ⟨h1, xs, h2, h3⟩ := resumeLoop_flag env fuel st q hr
        simp only [hr] at h
        split at h
        · cases h
          refine ⟨h1, xs ++ [Call.snd_pcm_prepare], by simp [call, h2], ?_⟩
          intro c hc
          simp only [List.mem_append, List.mem_singleton] at hc
          rcases hc with hc | rfl
          · exact h3 c hc
          · rfl
        · cases h; exact ⟨h1, xs, h2, h3⟩
    · cases h; exact ⟨rfl, [], by simp, by simp⟩

theorem failedWrite_noCancel (env : Env) (st : State) (buf : List Nat) (period : Int)
    (h : NoCancel env st) :
    (failedWrite env st buf period).1 = false ∧ NoCancel env (failedWrite env st buf period).2 := by
  have := readFlag_noCancel env
    (call env (call env st (.snd_pcm_writei buf (wrapU 64 period))).2 (.usleep 1000)).2 h
  exact ⟨this.1, this.2.1⟩

/-- A finished write loop keeps the flag clear when no cancellation is
requested; its first call is the write of the buffer and every later write in
it is a write of the same buffer. -/
theorem writeLoop_noCancel (env : Env) (buf : List Nat) (period : Int) :
    ∀ (fuel : Nat) (st s : State), NoCancel env st → writeLoop fuel env buf period st = some s →
      NoCancel env s ∧
        ∃ seg, s.trace = st.trace ++ seg ∧ BlockAttempt (wrapU 64 period) buf seg := by
  intro fuel
  induction fuel with
  | zero => intro st s _ h; simp [writeLoop] at h
  | succ n ih =>
    intro st s hc h
    rw [writeLoop_succ] at h
    obtain ⟨hf, hc1⟩ := failedWrite_noCancel env st buf period hc
    have htr := failedWrite_trace env st buf period
    split at h
    · rw [hf] at h
      simp only [Bool.false_eq_true, ↓reduceIte] at h
      split at h
      · obtain ⟨h1, seg, h2, xs, hseg, hxs⟩ := ih _ _ hc1 h
        refine ⟨h1, _, by rw [h2, htr, List.append_assoc], Call.usleep 1000 :: seg, by simp, ?_⟩
        intro b1 fr hb
        simp only [List.mem_cons, reduceCtorEq, false_or] at hb
        rw [hseg] at hb
        simp only [List.mem_cons, Call.snd_pcm_writei.injEq] at hb
        rcases hb with hb | hb
        · exact hb
        · exact hxs b1 fr hb
      · cases hx : xrun_recovery n env (failedWrite env st buf period).2
            (writeErr env st buf period) with
        | none => simp [hx] at h
        | some r =>
          simp only [hx, Option.map_some', Option.some.injEq] at h
          obtain ⟨h1, xs, h2, h3⟩ := xrun_recovery_flag _ _ _ _ _ hx
          subst h
          refine ⟨⟨h1.trans hc1.1, hc1.2⟩, _, by rw [h2, htr, List.append_assoc],
            Call.usleep 1000 :: xs, by simp, ?_⟩
          intro b1 fr hb
          simp only [List.mem_cons, reduceCtorEq, false_or] at hb
          have := h3 _ hb
          simp [Call.isWrite] at this
    · cases h
      exact ⟨hc, [Call.snd_pcm_writei buf (wrapU 64 period)], rfl, [], rfl, by simp⟩

theorem fread_content (fp : FILE) (n : Nat) : (fread fp n).2.content = fp.content := rfl

theorem fread_eof (fp : FILE) (n : Nat) (hn : 0 < n) (h : (fread fp n).1.length = 0) :
    (fread fp n).2.content.length ≤ (fread fp n).2.pos := by
  simp only [fread, List.length_take, List.length_drop] at h ⊢
  omega

/-- Without cancellation and with a read block of at least one byte, the
streaming loop ends only with the stream at its end. -/
theorem streamLoop_ends_at_eof (env : Env) (size period : Int) (hsize : 0 < size) :
    ∀ (fuel : Nat) (fp : FILE) (st : State) (r : State × FILE), NoCancel env st →
      streamLoop fuel env fp size period st = some r →
      r.2.content = fp.content ∧ r.2.content.length ≤ r.2.pos ∧ NoCancel env r.1 := by
  intro fuel
  induction fuel with
  | zero => intro fp st r _ h; simp [streamLoop] at h
  | succ n ih =>
    intro fp st r hc h
    obtain ⟨hf1, hc1, _⟩ := readFlag_noCancel env st hc
    obtain ⟨hf2, hc2, _⟩ := readFlag_noCancel env _ hc1
    simp only [streamLoop, hf1, hf2, Bool.false_eq_true, ↓reduceIte, false_or] at h
    split at h
    · rename_i hz
      cases h
      have hlen : (fread fp size.toNat).1.length = 0 := by omega
      exact ⟨rfl, fread_eof fp _ (by omega) hlen, hc2⟩
    · cases hw : writeLoop n env (fillBuffer size.toNat (fread fp size.toNat).1) period
          (readFlag env (readFlag env st).2).2 with
      | none => simp [hw] at h
      | some s =>
        simp only [hw] at h
        have hs := (writeLoop_noCancel env _ period n _ s hc2 hw).1
        obtain ⟨h1, h2, h3⟩ := ih _ _ _ hs h
        exact ⟨h1.trans (fread_content fp _), h2, h3⟩


theorem fread_data (fp : FILE) (n : Nat) :
    (fread fp n).1 = (fp.content.drop fp.pos).take n ∧
      (fread fp n).2.content.drop (fread fp n).2.pos = (fp.content.drop fp.pos).drop n := by
  refine ⟨rfl, ?_⟩
  simp only [fread, List.length_take, List.length_drop, List.drop_drop]
  by_cases h : n ≤ fp.content.length - fp.pos
  · rw [Nat.min_eq_left h]
  · rw [List.drop_eq_nil_of_le (by omega), List.drop_eq_nil_of_le (by omega)]

/-- C5: once the streaming loop of `play_wav_raw_data` has exited, for whatever
reason, the function returns with `g_terminate_flag` false, having made no
further call. -/
theorem play_wav_raw_data_resets_flag (fuel : Nat) (env : Env) (f : FILE)
    (info : PCM_SIZE_INFO) (block_size : Int) (st : State) (lr : State × FILE)
    (halloc : malloc env (bufferSize info block_size) = true)
    (hloop : streamLoop fuel env f (bufferSize info block_size) info.pcm_period_size st
      = some lr) :
    ∃ r, play_wav_raw_data fuel env (some f) info block_size st = some r ∧
      r.1.g_terminate_flag = false ∧ r.1.trace = lr.1.trace ∧ r.2 = some lr.2 := by
  exact ⟨({ lr.1 with g_terminate_flag := false }, some lr.2),
    by simp [play_wav_raw_data, halloc, hloop], rfl, rfl, rfl⟩

theorem play_wav_raw_data_resets_flag_witness :
    ∃ r, play_wav_raw_data 5 cancelEnv (some sampleStream) ⟨8, 2⟩ 2 State.init = some r ∧
      r.1.g_terminate_flag = false ∧
      r.1.trace = [.snd_pcm_writei [1, 2, 3, 4] 2] :=
  (play_wav_raw_data_resets_flag 5 cancelEnv sampleStream ⟨8, 2⟩ 2 State.init
    ((streamLoop 5 cancelEnv sampleStream 4 2 State.init).getD (State.init, sampleStream))
    (by decide) (by decide)).imp fun _ h => ⟨h.1, h.2.1, h.2.2.1.trans (by decide)⟩

theorem resumeLoop_mono (env : Env) :
    ∀ (n m : Nat) (st : State) (r : Int × State), n ≤ m → resumeLoop n env st = some r →
      resumeLoop m env st = some r := by
  intro n
  induction n with
  | zero => intro m st r _ h; simp [resumeLoop] at h
  | succ n ih =>
    intro m st r hm h
    obtain ⟨k, rfl⟩ : ∃ k, m = k + 1 := ⟨m - 1, by omega⟩
    simp only [resumeLoop] at h ⊢
    split
    · rename_i hc
      rw [if_pos hc] at h
      exact ih k _ _ (by omega) h
    · rename_i hc
      rw [if_neg hc] at h
      exact h

theorem xrun_recovery_mono (env : Env) (n m : Nat) (st : State) (err : Int) (r : Int × State)
    (hm : n ≤ m) (h : xrun_recovery n env st err = some r) :
    xrun_recovery m env st err = some r := by
  unfold xrun_recovery at h ⊢
  split
  · rename_i hc
    rw [if_pos hc] at h
    exact h
  · rename_i hc
    rw [if_neg hc] at h
    split
    · rename_i hc2
      rw [if_pos hc2] at h
      cases hr : resumeLoop n env st with
      | none => simp [hr] at h
      | some q =>
        rw [resumeLoop_mono env n m st q hm hr]
        simpa [hr] using h
    · rename_i hc2
      rw [if_neg hc2] at h
      exact h

theorem writeLoop_mono (env : Env) (buf : List Nat) (period : Int) :
    ∀ (n m : Nat) (st s : State), n ≤ m → writeLoop n env buf period st = some s →
      writeLoop m env buf period st = some s := by
  intro n
  induction n with
  | zero => intro m st s _ h; simp [writeLoop] at h
  | succ n ih =>
    intro m st s hm h
    obtain ⟨k, rfl⟩ : ∃ k, m = k + 1 := ⟨m - 1, by omega⟩
    rw [writeLoop_succ] at h ⊢
    split
    · rename_i c1
      rw [if_pos c1] at h
      split
      · rename_i c2
        rw [if_pos c2] at h
        exact h
      · rename_i c2
        rw [if_neg c2] at h
        split
        · rename_i c3
          rw [if_pos c3] at h
          exact ih k _ _ (by omega) h
        · rename_i c3
          rw [if_neg c3, if_pos c1] at h
          cases hx : xrun_recovery n env (failedWrite env st buf period).2
              (writeErr env st buf period) with
          | none => simp [hx] at h
          | some q =>
            rw [xrun_recovery_mono env n k _ _ q (by omega) hx]
            simpa [hx] using h
    · rename_i c1
      rw [if_neg c1] at h
      exact h

theorem streamLoop_mono (env : Env) (size period : Int) :
    ∀ (n m : Nat) (fp : FILE) (st : State) (r : State × FILE), n ≤ m →
      streamLoop n env fp size period st = some r →
      streamLoop m env fp size period st = some r := by
  intro n
  induction n with
  | zero => intro m fp st r _ h; simp [streamLoop] at h
  | succ n ih =>
    intro m fp st r hm h
    obtain ⟨k, rfl⟩ : ∃ k, m = k + 1 := ⟨m - 1, by omega⟩
    simp only [streamLoop] at h ⊢
    split
    · rename_i c1
      rw [if_pos c1] at h
      exact h
    · rename_i c1
      rw [if_neg c1] at h
      split
      · rename_i c2
        rw [if_pos c2] at h
        exact h
      · rename_i c2
        rw [if_neg c2] at h
        cases hw : writeLoop n env (fillBuffer size.toNat (fread fp size.toNat).1) period
            (readFlag env (readFlag env st).2).2 with
        | none => simp [hw] at h
        | some s =>
          rw [writeLoop_mono env _ period n k _ s (by omega) hw]
          simp only [hw] at h
          exact ih k _ _ _ (by omega) h

/-- When no cancellation is requested and every write loop comes to an end,
the streaming loop returns with the stream at its end, and its calls fall into
one group per block of the data, in file order: each group starts with the
write of its block and writes nothing else. -/
theorem streamLoop_attempts_all_blocks (env : Env) (size period : Int) (hsize : 0 < size)
    (hend : WriteLoopsEnd env period) :
    ∀ (n : Nat) (fp : FILE) (st : State), NoCancel env st →
      (fp.content.drop fp.pos).length ≤ n →
      ∃ fuel r segs, streamLoop fuel env fp size period st = some r ∧
        r.1.trace = st.trace ++ segs.flatten ∧
        List.Forall₂ (BlockAttempt (wrapU 64 period))
          (blocksAux size.toNat n (fp.content.drop fp.pos)) segs ∧
        NoCancel env r.1 ∧ r.2.content = fp.content ∧ r.2.content.length ≤ r.2.pos := by
  have hS : 0 < size.toNat := by omega
  have stop : ∀ (fp : FILE) (st : State), NoCancel env st →
      fp.content.drop fp.pos = [] →
      ∃ r, streamLoop 1 env fp size period st = some r ∧
        r.1.trace = st.trace ∧ NoCancel env r.1 ∧ r.2.content = fp.content ∧
        r.2.content.length ≤ r.2.pos := by
    intro fp st hc hd
    obtain ⟨hf1, hc1, ht1⟩ := readFlag_noCancel env st hc
    obtain ⟨hf2, hc2, ht2⟩ := readFlag_noCancel env _ hc1
    have hgot : (fread fp size.toNat).1 = [] := by rw [(fread_data fp _).1, hd]; simp
    refine ⟨((readFlag env (readFlag env st).2).2, (fread fp size.toNat).2), ?_, ht2.trans ht1,
      hc2, fread_content fp _, ?_⟩
    · simp only [streamLoop, hf1, hf2, hgot, Bool.false_eq_true, ↓reduceIte, false_or,
        List.length_nil, Nat.cast_zero, ge_iff_le, le_refl]
    · exact fread_eof fp _ hS (by rw [hgot]; rfl)
  intro n
  induction n with
  | zero =>
    intro fp st hc hlen
    obtain ⟨r, h1, h2, h3⟩ := stop fp st hc (List.length_eq_zero.mp (by omega))
    exact ⟨1, r, [], h1, by simp [h2], by simp [blocksAux], h3⟩
  | succ n ih =>
    intro fp st hc hlen
    by_cases hd : fp.content.drop fp.pos = []
    · obtain ⟨r, h1, h2, h3⟩ := stop fp st hc hd
      exact ⟨1, r, [], h1, by simp [h2], by simp [hd, blocksAux], h3⟩
    · obtain ⟨hf1, hc1, ht1⟩ := readFlag_noCancel env st hc
      obtain ⟨hf2, hc2, ht2⟩ := readFlag_noCancel env _ hc1
      have hpos : 0 < (fp.content.drop fp.pos).length := List.length_pos.mpr hd
      have hgot : 0 < (fread fp size.toNat).1.length := by
        rw [(fread_data fp _).1, List.length_take]; omega
      have hrest := (fread_data fp size.toNat).2
      obtain ⟨f0, s, hw⟩ := hend (readFlag env (readFlag env st).2).2
        (fillBuffer size.toNat (fread fp size.toNat).1) hc2
      obtain ⟨hcs, seg, hseg, hatt⟩ := writeLoop_noCancel env _ period f0 _ s hc2 hw
      obtain ⟨f1, r, segs, h1, h2, h3, h4, h5, h6⟩ := ih (fread fp size.toNat).2 s hcs
        (by rw [hrest, List.length_drop]; omega)
      refine ⟨max f0 f1 + 1, r, seg :: segs, ?_, ?_, ?_, h4, h5.trans (fread_content fp _), h6⟩
      · have hnz : ¬ (0 : Int) ≥ ((fread fp size.toNat).1.length : Int) := by omega
        simp only [streamLoop, hf1, hf2, Bool.false_eq_true, ↓reduceIte, false_or, hnz,
          writeLoop_mono env _ period f0 (max f0 f1) _ s (le_max_left _ _) hw]
        exact streamLoop_mono env size period f1 (max f0 f1) _ _ r (le_max_right _ _) h1
      · rw [h2, hseg, ht2, ht1]
        simp
      · rw [hrest] at h3
        simp only [blocksAux, hd, ↓reduceIte]
        refine List.Forall₂.cons ?_ h3
        rw [(fread_data fp _).1] at hatt
        exact hatt

/-- When the device never answers `-EAGAIN` or `-ESTRPIPE` to a write, every
write loop ends after one turn. -/
theorem writeLoopsEnd_of_no_retry (env : Env) (period : Int)
    (h : ∀ (hist : List Call) (buf : List Nat) (fr : Nat),
      wrapS 32 (env.resp (hist ++ [Call.snd_pcm_writei buf fr])) ≠ -EAGAIN ∧
      wrapS 32 (env.resp (hist ++ [Call.snd_pcm_writei buf fr])) ≠ -ESTRPIPE) :
    WriteLoopsEnd env period := by
  intro st buf hc
  obtain ⟨h1, h2⟩ := h st.trace buf (wrapU 64 period)
  have hf := (failedWrite_noCancel env st buf period hc).1
  have e1 : ¬ (-EAGAIN = writeErr env st buf period) := fun e => h1 e.symm
  have e2 : ¬ (-ESTRPIPE = writeErr env st buf period) := fun e => h2 e.symm
  by_cases hneg : 0 > writeErr env st buf period
  · by_cases hp : -EPIPE = writeErr env st buf period
    · exact ⟨1, _, by rw [writeLoop_succ]; simp [hneg, hf, e1, xrun_recovery, hp]; rfl⟩
    · exact ⟨1, _, by rw [writeLoop_succ]; simp [hneg, hf, e1, xrun_recovery, hp, e2]; rfl⟩
  · exact ⟨1, _, by rw [writeLoop_succ, if_neg hneg]⟩

/-- C9: in the write loop, with no cancellation seen, a write that returns
`-EAGAIN` is followed by the pause and then by the same loop on the same
buffer, whose first call is again the write of that buffer; a write that
returns any other negative code hands that code to `xrun_recovery` once and the
loop for this buffer ends with the state recovery leaves, whatever it returned;
`xrun_recovery` returns a code other than `-EPIPE` and `-ESTRPIPE` unchanged
and makes no call; the streaming loop then goes on with the next read; a
streaming loop that ends without cancellation has reached the end of the
stream; and when every write loop comes to an end, whatever the writes
returned, the streaming loop does return, at the end of the stream, having
started a write for every block of the data in file order. -/
theorem write_failures_do_not_end_stream (fuel : Nat) (env : Env) (st : State) :
    (∀ (buf : List Nat) (period : Int), writeErr env st buf period = -EAGAIN →
      (failedWrite env st buf period).1 = false →
      writeLoop (fuel + 1) env buf period st =
        writeLoop fuel env buf period (failedWrite env st buf period).2 ∧
      (failedWrite env st buf period).2.trace =
        st.trace ++ [.snd_pcm_writei buf (wrapU 64 period), .usleep 1000] ∧
      (∀ s, NoCancel env st → writeLoop fuel env buf period (failedWrite env st buf period).2
          = some s →
        ∃ xs, s.trace = (failedWrite env st buf period).2.trace ++
          Call.snd_pcm_writei buf (wrapU 64 period) :: xs)) ∧
    (∀ (buf : List Nat) (period : Int), writeErr env st buf period < 0 →
      writeErr env st buf period ≠ -EAGAIN →
      (failedWrite env st buf period).1 = false →
      writeLoop (fuel + 1) env buf period st =
        (xrun_recovery fuel env (failedWrite env st buf period).2
          (writeErr env st buf period)).map Prod.snd) ∧
    (∀ err : Int, err ≠ -EPIPE → err ≠ -ESTRPIPE →
      xrun_recovery fuel env st err = some (err, st)) ∧
    (∀ (fp : FILE) (size period : Int) (s : State), NoCancel env st →
      0 < (fread fp size.toNat).1.length →
      writeLoop fuel env (fillBuffer size.toNat (fread fp size.toNat).1) period
        (readFlag env (readFlag env st).2).2 = some s →
      streamLoop (fuel + 1) env fp size period st =
        streamLoop fuel env (fread fp size.toNat).2 size period s) ∧
    (∀ (fp : FILE) (size period : Int) (r : State × FILE), NoCancel env st → 0 < size →
      streamLoop fuel env fp size period st = some r →
      r.2.content = fp.content ∧ r.2.content.length ≤ r.2.pos) ∧
    (∀ (fp : FILE) (size period : Int), NoCancel env st → 0 < size →
      WriteLoopsEnd env period →
      ∃ fuel1 r segs, streamLoop fuel1 env fp size period st = some r ∧
        issued st r.1 = segs.flatten ∧
        List.Forall₂ (BlockAttempt (wrapU 64 period))
          (blocks size.toNat (fp.content.drop fp.pos)) segs ∧
        r.2.content = fp.content ∧ r.2.content.length ≤ r.2.pos) := by
  refine ⟨?_, ?_, ?_, ?_, ?_, ?_⟩
  · intro buf period herr hflag
    have hneg : (0 : Int) > -EAGAIN := by decide
    refine ⟨?_, failedWrite_trace env st buf period, ?_⟩
    · rw [writeLoop_succ]
      simp [herr, hflag, hneg]
    · intro s hc hs
      obtain ⟨seg, h1, xs, hseg, _⟩ := (writeLoop_noCancel env buf period fuel _ s
        (failedWrite_noCancel env st buf period hc).2 hs).2
      exact ⟨xs, by rw [h1, hseg]⟩
  · intro buf period hneg hne hflag
    rw [writeLoop_succ]
    have hne2 : ¬ (-EAGAIN = writeErr env st buf period) := fun h => hne h.symm
    simp [hneg, hflag, hne2]
  · intro err h1 h2
    have h1b : ¬ (-EPIPE = err) := fun h => h1 h.symm
    have h2b : ¬ (-ESTRPIPE = err) := fun h => h2 h.symm
    simp [xrun_recovery, h1b, h2b]
  · intro fp size period s hc hgot hw
    obtain ⟨hf1, hc1, _⟩ := readFlag_noCancel env st hc
    obtain ⟨hf2, _, _⟩ := readFlag_noCancel env _ hc1
    have hnz : ¬ (0 : Int) ≥ ((fread fp size.toNat).1.length : Int) := by omega
    simp only [streamLoop, hf1, hf2, Bool.false_eq_true, ↓reduceIte, false_or, hnz, hw]
  · intro fp size period r hc hsize h
    obtain ⟨h1, h2, _⟩ := streamLoop_ends_at_eof env size period hsize fuel fp st r hc h
    exact ⟨h1, h2⟩
  · intro fp size period hc hsize hend
    obtain ⟨f1, r, segs, h1, h2, h3, _, h5, h6⟩ := streamLoop_attempts_all_blocks env size
      period hsize hend (fp.content.drop fp.pos).length fp st hc (le_refl _)
    exact ⟨f1, r, segs, h1, by simp [issued, h2], h3, h5, h6⟩

theorem eioEnv_writeLoopsEnd : WriteLoopsEnd eioEnv 2 := by
  apply writeLoopsEnd_of_no_retry
  intro hist buf fr
  show wrapS 32 (-5) ≠ -EAGAIN ∧ wrapS 32 (-5) ≠ -ESTRPIPE
  decide

theorem write_failures_do_not_end_stream_witness :
    xrun_recovery 2 flakyEnv State.init (-5) = some (-5, State.init) ∧
      writeLoop 3 flakyEnv [1, 2, 3, 4] 2 State.init =
        writeLoop 2 flakyEnv [1, 2, 3, 4] 2 (failedWrite flakyEnv State.init [1, 2, 3, 4] 2).2 ∧
      ∃ fuel1 r segs, streamLoop fuel1 eioEnv sampleStream 4 2 State.init = some r ∧
        issued State.init r.1 = segs.flatten ∧
        List.Forall₂ (BlockAttempt (wrapU 64 2))
          (blocks 4 [1, 2, 3, 4, 5, 6, 7, 8, 9, 10]) segs ∧
        r.2.content = sampleStream.content ∧ r.2.content.length ≤ r.2.pos :=
  ⟨(write_failures_do_not_end_stream 2 flakyEnv State.init).2.2.1 (-5) (by decide) (by decide),
    ((write_failures_do_not_end_stream 2 flakyEnv State.init).1 [1, 2, 3, 4] 2 (by decide)
      (by decide)).1,
    (write_failures_do_not_end_stream 0 eioEnv State.init).2.2.2.2.2 sampleStream 4 2
      ⟨rfl, fun _ => by simp [eioEnv, okEnv]⟩ (by decide) eioEnv_writeLoopsEnd⟩

/-! ## Buffer size -/

/-- C10: the code does not keep what the claim says. The file `misalignedFile`
has a header for 2 channels of 16 bits with `block_aligned = 1`; `isWavFormat`
and `set_hwparams` accept it. With a negotiated period of 4 frames the buffer
of `play_wav_raw_data` has `4 * 1 = 4` bytes, while one write of 4 frames of
2 channels of 2 bytes takes 16 bytes: `play_wav_file` sets the device to
S16_LE on 2 channels and then passes 4-byte buffers to `snd_pcm_writei` for 4
frames each. -/
theorem buffer_smaller_than_one_write :
    (isWavFormat (some ⟨misalignedFile, 0⟩)).1 = true ∧
      (isWavFormat (some ⟨misalignedFile, 0⟩)).2.1.channels = 2 ∧
      (isWavFormat (some ⟨misalignedFile, 0⟩)).2.1.bits_per_sample = 16 ∧
      (isWavFormat (some ⟨misalignedFile, 0⟩)).2.1.block_aligned = 1 ∧
      (set_hwparams (okEnv 4) State.init (isWavFormat (some ⟨misalignedFile, 0⟩)).2.1
        ⟨0, 0⟩).1 = true ∧
      (set_hwparams (okEnv 4) State.init (isWavFormat (some ⟨misalignedFile, 0⟩)).2.1
        ⟨0, 0⟩).2.1.pcm_period_size = 4 ∧
      bufferSize
        (set_hwparams (okEnv 4) State.init (isWavFormat (some ⟨misalignedFile, 0⟩)).2.1
          ⟨0, 0⟩).2.1
        (isWavFormat (some ⟨misalignedFile, 0⟩)).2.1.block_aligned = 4 ∧
      4 * (isWavFormat (some ⟨misalignedFile, 0⟩)).2.1.channels *
        ((isWavFormat (some ⟨misalignedFile, 0⟩)).2.1.bits_per_sample >>> (3 : Nat)) = 16 ∧
      (play_wav_file 12 (okEnv 4) (fun _ => some misalignedFile) (some [119]) none
        State.init).map State.trace =
        some [Call.snd_pcm_open [100, 101, 102, 97, 117, 108, 116],
          Call.snd_pcm_hw_params_any,
          Call.snd_pcm_hw_params_set_rate_resample 1,
          Call.snd_pcm_hw_params_set_access_rw_interleaved,
          Call.snd_pcm_hw_params_set_format Format.S16_LE,
          Call.snd_pcm_hw_params_set_channels 2,
          Call.snd_pcm_hw_params_set_rate_near 44100,
          Call.snd_pcm_hw_params_get_buffer_time_max,
          Call.snd_pcm_hw_params_set_buffer_time_near 4,
          Call.snd_pcm_hw_params_get_buffer_size,
          Call.snd_pcm_hw_params_get_period_time_max,
          Call.snd_pcm_hw_params_set_period_time_near 4,
          Call.snd_pcm_hw_params_get_period_size,
          Call.snd_pcm_hw_params,
          Call.snd_pcm_sw_params_current,
          Call.snd_pcm_sw_params_set_start_threshold 4,
          Call.snd_pcm_sw_params_set_avail_min 4,
          Call.snd_pcm_sw_params,
          Call.snd_pcm_writei [1, 2, 3, 4] 4,
          Call.snd_pcm_writei [5, 6, 7, 8] 4,
          Call.snd_pcm_writei [9, 10, 0, 0] 4] := by
  decide

end WavPlayer
